import Mathlib

/-!
Verification of the `ts_envsensors` SEL temperature protocol converter,
its mock temperature sensor, and the command-handler control state machine.

The embedding follows `python/lsst/ts/envsensors/sel_temperature_reader.py`
and `python/lsst/ts/ess/sensors/mock/mock_temperature_sensor.py`.
Python `float` values are modelled as `Option ℚ`: `none` stands for `nan`
(the protocol only ever stores finite decimal values or `nan`), and strings
of the serial protocol are modelled as `List Char`.
-/

namespace EnvSensors

/-- One entry of a telemetry record: Python lists mix strings and floats. -/
inductive Entry where
  | str : String → Entry
  | num : Option ℚ → Entry
  deriving DecidableEq, Repr

/-! ### Decimal digits

Helpers for rendering and parsing the fixed-width decimal numbers of the
SEL serial protocol (Python's `float(...)` and `f"{x:09.4f}"`). -/

/-- The character for a single decimal digit. -/
def digitChar (d : ℕ) : Char := Char.ofNat (48 + d)

/-- Decimal digits of `n`, most significant first. -/
def natDigits (n : ℕ) : List Char :=
  if h : n < 10 then [digitChar n]
  else natDigits (n / 10) ++ [digitChar (n % 10)]
  decreasing_by exact Nat.div_lt_self (by omega) (by omega)

/-- Numeric value of a digit string (the usual left fold). -/
def digitsToNat (l : List Char) : ℕ :=
  l.foldl (fun a c => 10 * a + (c.toNat - 48)) 0

/-- Left-pad with `'0'` to width `w` (Python zero-padded formatting). -/
def pad0 (w : ℕ) (l : List Char) : List Char :=
  List.replicate (w - l.length) '0' ++ l

/-! ### A model of Python `float(...)` on protocol value strings

The instrument protocol only ever presents fixed-width signed decimals
(`snnn.nnnn`); the model covers the plain-decimal grammar of `float`
(optional sign, integer digits, optional fractional part), which is the
fragment exercised by this protocol. -/

/-- Parse an unsigned decimal, requiring the whole input to be consumed. -/
def pyFloatUnsigned (r : List Char) : Option ℚ :=
  let ip := r.takeWhile Char.isDigit
  match r.dropWhile Char.isDigit with
  | [] => if ip = [] then none else some (digitsToNat ip : ℚ)
  | '.' :: r2 =>
    let fp := r2.takeWhile Char.isDigit
    if r2.dropWhile Char.isDigit = [] ∧ ¬(ip = [] ∧ fp = []) then
      some ((digitsToNat ip : ℚ) + (digitsToNat fp : ℚ) / 10 ^ fp.length)
    else none
  | _ => none

/-- Model of Python `float(str)` on the decimal fragment of its grammar. -/
def pyFloat (w : List Char) : Option ℚ :=
  match w with
  | '+' :: r => pyFloatUnsigned r
  | '-' :: r => (pyFloatUnsigned r).map (fun q => -q)
  | r => pyFloatUnsigned r

/-! ### SEL temperature protocol converter

Embedding of `SelTemperature` from `sel_temperature_reader.py`.
The mutable decoder state is the `self.temperature` list (`none` = `nan`);
`read` maps the transport's `(device_name, err, ser_line)` triple and the
current clock value to the produced output record and the new state.
A raised Python exception is modelled as `Except.error`. -/

def PREAMBLE_SIZE : ℕ := 4

def VALUE_SIZE : ℕ := 9

def DELIMITER : List Char := [',']

def TERMINATOR : List Char := ['\r', '\n']

/-- Python slice `l[-n:]` for `n ≤ len(l)` (and all of `l` when shorter). -/
def takeRight (n : ℕ) (l : List Char) : List Char := l.drop (l.length - n)

/-- Python slice `l[:-n]` for `n ≤ len(l)` (and `[]` when shorter). -/
def dropRight (n : ℕ) (l : List Char) : List Char := l.take (l.length - n)

/-- First occurrence of `sep`: the part before it and the part after it. -/
def breakAtSep (sep : Char) : List Char → Option (List Char × List Char)
  | [] => none
  | c :: r =>
    if c = sep then some ([], r)
    else
      match breakAtSep sep r with
      | some (a, b) => some (c :: a, b)
      | none => none

/-- Python `s.split(sep, maxsplit)` for a single-character separator. -/
def pySplit (sep : Char) : ℕ → List Char → List (List Char)
  | 0, s => [s]
  | m + 1, s =>
    match breakAtSep sep s with
    | none => [s]
    | some (a, b) => a :: pySplit sep m b

/-- The per-channel preamble `f"C{i:02}="` built in `SelTemperature.__init__`
(the precomputed `_preamble_str` list is modelled as a function of the
channel index; `_old_preamble_str[i]` is `preambleStr (i+1)`). -/
def preambleStr (i : ℕ) : List Char :=
  'C' :: pad0 2 (natDigits i) ++ ['=']

/-- Expected serial line length `_read_line_size` from `__init__`. -/
def readLineSize (channels : ℕ) : ℕ :=
  channels * (PREAMBLE_SIZE + VALUE_SIZE + DELIMITER.length)
    - DELIMITER.length + TERMINATOR.length

/-- `SelTemperature._test_val`: preamble match plus a float test of the
slice `sensor_str[PREAMBLE_SIZE : PREAMBLE_SIZE + VALUE_SIZE + 1 - 1]`.
The implicit `None` returned on a preamble mismatch is falsy in Python,
so the function is modelled as returning `false` there. -/
def test_val (preamble sensorStr : List Char) : Bool :=
  decide (sensorStr.take PREAMBLE_SIZE = preamble) &&
    (pyFloat ((sensorStr.drop PREAMBLE_SIZE).take
      (PREAMBLE_SIZE + VALUE_SIZE + DELIMITER.length - 1 - PREAMBLE_SIZE))).isSome

/-- Error string for a failed terminator or line-size check. -/
def termErr (serLine : List Char) : String :=
  "Malformed response. Terminator or line size incorrect: " ++ String.mk serLine

/-- Error string for a failed per-channel preamble/data check. -/
def chanErr (serLine : List Char) : String :=
  "Malformed response. Channel preamble or channel data incorrect: "
    ++ String.mk serLine

/-- Error string for a failed float conversion. -/
def convErr (serLine : List Char) : String :=
  "Temperature data error. Could not convert value(s) to float: "
    ++ String.mk serLine

/-- One iteration of the channel loop in `SelTemperature.read`: the value
stored into `_tmp_temperature[i]` and the error message, if any, that this
iteration writes into `err`. -/
def chanOutcome (i : ℕ) (t serLine : List Char) : Option ℚ × Option String :=
  if test_val (preambleStr i) t || test_val (preambleStr (i + 1)) t then
    match pyFloat (t.drop PREAMBLE_SIZE) with
    | some v => (some v, none)
    | none => (none, some (convErr serLine))
  else (none, some (chanErr serLine))

/-- The channel loop of `SelTemperature.read`, iterating `k` more channels
starting at index `i`. `temps[i]` past the end of the split list raises
`IndexError` in Python, modelled as `Except.error`; the `temperature`
list updated so far is returned alongside, mirroring the partially
mutated `self.temperature`. -/
def selLoop (temps : List (List Char)) (serLine : List Char) :
    ℕ → ℕ → String → List (Option ℚ) → Except String String × List (Option ℚ)
  | 0, _, err, temperature => (.ok err, temperature)
  | k + 1, i, err, temperature =>
    match temps[i]? with
    | none => (.error "IndexError", temperature)
    | some t =>
      let o := chanOutcome i t serLine
      selLoop temps serLine k (i + 1) (o.2.getD err) (temperature.set i o.1)

/-- The output record built at the end of `SelTemperature.read`:
`[device_name, time.time(), err, *temperature]`. -/
def mkRecord (deviceName : String) (now : ℚ) (err : String)
    (temperature : List (Option ℚ)) : List Entry :=
  Entry.str deviceName :: Entry.num (some now) :: Entry.str err
    :: temperature.map Entry.num

/-- `SelTemperature.read`. The transport's `readline` result is the triple
`(deviceName, errIn, serLine)`; `now` is the value of `time.time()` when the
record is assembled. Returns the record (or the uncaught exception) together
with the new `self.temperature` state. -/
def selRead (channels : ℕ) (temperature : List (Option ℚ))
    (deviceName errIn : String) (serLine : List Char) (now : ℚ) :
    Except String (List Entry) × List (Option ℚ) :=
  if errIn = "OK" then
    if takeRight TERMINATOR.length serLine = TERMINATOR
        ∧ serLine.length = readLineSize channels then
      match selLoop (pySplit ',' (channels - 1) (dropRight TERMINATOR.length serLine))
          serLine channels 0 errIn temperature with
      | (.ok e, temperature2) =>
        (.ok (mkRecord deviceName now e temperature2), temperature2)
      | (.error ex, temperature2) => (.error ex, temperature2)
    else
      (.ok (mkRecord deviceName now (termErr serLine) temperature), temperature)
  else
    (.ok (mkRecord deviceName now errIn temperature), temperature)

/-! ### Analysis of the channel loop -/

/-- The error string held in `err` after processing `k` channels from `i`,
when channel `j` contributes the optional message `(o j).2`. -/
def errWindow (o : ℕ → Option ℚ × Option String) : ℕ → ℕ → String → String
  | 0, _, err => err
  | k + 1, i, err => errWindow o k (i + 1) (((o i).2).getD err)

/-- The `temperature` list after processing `k` channels from `i`. -/
def updWindow (o : ℕ → Option ℚ × Option String) :
    ℕ → ℕ → List (Option ℚ) → List (Option ℚ)
  | 0, _, temperature => temperature
  | k + 1, i, temperature => updWindow o k (i + 1) (temperature.set i (o i).1)

/-! ### Splitting a comma-joined line -/

/-- Comma-joined fields, as Python's `",".join` would produce them. -/
def joinSep (sep : Char) : List (List Char) → List Char
  | [] => []
  | [f] => f
  | f :: g :: fs => f ++ sep :: joinSep sep (g :: fs)

/-! ### Mock temperature sensor

Embedding of `MockTemperatureSensor` from `mock_temperature_sensor.py`.
The draw of `random.uniform(MIN_TEMP, MAX_TEMP)` for channel `i` is the
parameter `draw i`; Python's `f"{temp:09.4f}"` rendering is modelled by
`format09_4` (rounding to four decimals; the tie-breaking rule of the
rounding is immaterial to every property proved here). -/

def MIN_TEMP : ℚ := 18

def MAX_TEMP : ℚ := 30

/-- Python `f"{t:09.4f}"`: fixed-point, four decimals, zero-padded to
width 9 (sign included for negative values). -/
def format09_4 (t : ℚ) : List Char :=
  if t < 0 then
    '-' :: (pad0 3 (natDigits ((round (-t * 10000)).toNat / 10000)) ++
      '.' :: pad0 4 (natDigits ((round (-t * 10000)).toNat % 10000)))
  else
    pad0 4 (natDigits ((round (t * 10000)).toNat / 10000)) ++
      '.' :: pad0 4 (natDigits ((round (t * 10000)).toNat % 10000))

/-- `MockTemperatureSensor.format_temperature`: preamble with
`count_offset`, the drawn temperature (or the `9999.9990` sentinel when
`i` is the NaN channel), then delimiter or terminator. -/
def formatTemperature (channels offset : ℕ) (nanChannel : Option ℕ)
    (term : List Char) (i : ℕ) (t : ℚ) : List Char :=
  (if nanChannel = some i then preambleStr (i + offset) ++ "9999.9990".data
   else preambleStr (i + offset) ++ format09_4 t) ++
    (if i = channels - 1 then term else DELIMITER)

/-- The response line assembled by `MockTemperatureSensor.readline`. -/
def mockLine (channels offset : ℕ) (nanChannel : Option ℕ)
    (term : List Char) (draw : ℕ → ℚ) : List Char :=
  ((List.range channels).map
    (fun i => formatTemperature channels offset nanChannel term i (draw i))).flatten

/-- `MockTemperatureSensor.readline`: always the name, the fixed error
string `"OK"`, and the assembled line. -/
def mockReadline (name : String) (channels offset : ℕ)
    (nanChannel : Option ℕ) (term : List Char) (draw : ℕ → ℚ) :
    String × String × List Char :=
  (name, "OK", mockLine channels offset nanChannel term draw)

/-- The channel body without its trailing delimiter or terminator. -/
def mockField (offset : ℕ) (nanChannel : Option ℕ) (i : ℕ) (t : ℚ) :
    List Char :=
  if nanChannel = some i then preambleStr (i + offset) ++ "9999.9990".data
  else preambleStr (i + offset) ++ format09_4 t

/-- Comma-terminated chunks for channels `0 .. n-1`. -/
def sepJoin (body : ℕ → List Char) (n : ℕ) : List Char :=
  ((List.range n).map (fun i => body i ++ [','])).flatten

/-! ### Command handler (spec-modelled)

The `CommandHandler` module itself is not part of this tree (only its unit
tests are); the control state machine is modelled from the specification,
section 4.5. -/

inductive DeviceType where
  | FTDI
  | SERIAL
  deriving DecidableEq

inductive SensorType where
  | TEMPERATURE
  | HX85A
  | HX85BA
  deriving DecidableEq

structure DeviceConfig where
  name : String
  devType : DeviceType
  devId : String
  sensType : SensorType
  numChannels : ℕ
  deriving DecidableEq

/-- Modelled from the spec: configuration validation of section 4.5 of the
specification (the `CommandHandler` source is not in this tree): a
non-empty device list, unique names, recognized enum values (enforced by
the types here) and `channels ≥ 1` for TEMPERATURE sensors. -/
def validConfiguration (devices : List DeviceConfig) : Bool :=
  decide (devices ≠ []) &&
    decide ((devices.map DeviceConfig.name).Nodup) &&
    devices.all (fun d =>
      decide (d.sensType ≠ SensorType.TEMPERATURE) || decide (1 ≤ d.numChannels))

/-- The command handler's control state: the current configuration, if
any, and whether acquisition has been started. -/
structure HandlerState where
  configuration : Option (List DeviceConfig)
  started : Bool
  deriving DecidableEq

inductive Command where
  | configure (devices : List DeviceConfig)
  | start
  | stop

/-- Modelled from the spec: `CommandHandler.handle_command` (section 4.5
of the specification; the source module is not in this tree, only its unit
tests). Returns the response code and the state after the command:
`configure` requires not started, `start` requires a configuration and not
started, `stop` requires started; a precondition violation answers the
state-specific error code and leaves the state unchanged. -/
def handleCommand (st : HandlerState) : Command → String × HandlerState
  | .configure devices =>
    if st.started then ("ALREADY_STARTED", st)
    else if validConfiguration devices then
      ("OK", { configuration := some devices, started := false })
    else ("INVALID_CONFIGURATION", st)
  | .start =>
    match st.configuration with
    | none => ("NOT_CONFIGURED", st)
    | some _ =>
      if st.started then ("ALREADY_STARTED", st)
      else ("OK", { st with started := true })
  | .stop =>
    if st.started then ("OK", { st with started := false })
    else ("NOT_STARTED", st)

/-! ### The claims -/

/-- The per-channel acceptance test of the loop body of
`SelTemperature.read`: `_test_val` against the 0-indexed preamble or
against the legacy 1-indexed preamble. -/
def fieldAccepted (j : ℕ) (t : List Char) : Bool :=
  test_val (preambleStr j) t || test_val (preambleStr (j + 1)) t

/-! ### Theorems -/

theorem digitChar_isDigit {d : ℕ} (h : d < 10) : (digitChar d).isDigit = true := by
  interval_cases d <;> decide

theorem digitChar_toNat {d : ℕ} (h : d < 10) : (digitChar d).toNat = 48 + d := by
  interval_cases d <;> decide

theorem digitChar_ne_comma {d : ℕ} (h : d < 10) : digitChar d ≠ ',' := by
  interval_cases d <;> decide

theorem natDigits_all_digits (n : ℕ) : ∀ c ∈ natDigits n, c.isDigit = true := by
  induction n using Nat.strong_induction_on with
  | _ n ih =>
    rw [natDigits]
    split
    · intro c hc
      rcases List.mem_singleton.mp hc with rfl
      exact digitChar_isDigit (by omega)
    · intro c hc
      rcases List.mem_append.mp hc with h | h
      · exact ih (n / 10) (Nat.div_lt_self (by omega) (by omega)) c h
      · rcases List.mem_singleton.mp h with rfl
        exact digitChar_isDigit (Nat.mod_lt _ (by omega))

theorem natDigits_ne_nil (n : ℕ) : natDigits n ≠ [] := by
  rw [natDigits]
  split <;> simp

/-- Folding the digit value from an arbitrary accumulator. -/
theorem digitsToNat_foldl (l : List Char) (a : ℕ) :
    l.foldl (fun a c => 10 * a + (c.toNat - 48)) a =
      a * 10 ^ l.length + digitsToNat l := by
  induction l generalizing a with
  | nil => simp [digitsToNat]
  | cons c t ih =>
    simp only [List.foldl_cons, digitsToNat, List.length_cons]
    rw [ih (10 * a + (c.toNat - 48)), ih (10 * 0 + (c.toNat - 48))]
    ring

theorem digitsToNat_append (a b : List Char) :
    digitsToNat (a ++ b) = digitsToNat a * 10 ^ b.length + digitsToNat b := by
  unfold digitsToNat
  rw [List.foldl_append, digitsToNat_foldl]
  rfl

theorem digitsToNat_natDigits (n : ℕ) : digitsToNat (natDigits n) = n := by
  induction n using Nat.strong_induction_on with
  | _ n ih =>
    rw [natDigits]
    split
    · simp [digitsToNat, digitChar_toNat, *]
    · rw [digitsToNat_append, ih (n / 10) (Nat.div_lt_self (by omega) (by omega))]
      simp [digitsToNat, digitChar_toNat (Nat.mod_lt n (by omega))]
      omega

theorem natDigits_length_le {n k : ℕ} (hk : 1 ≤ k) (h : n < 10 ^ k) :
    (natDigits n).length ≤ k := by
  induction n using Nat.strong_induction_on generalizing k with
  | _ n ih =>
    rw [natDigits]
    split
    · simpa using hk
    · have hk2 : 2 ≤ k := by
        rcases Nat.lt_or_ge k 2 with h2 | h2
        · interval_cases k <;> omega
        · exact h2
      have : n / 10 < 10 ^ (k - 1) := by
        have : 10 ^ k = 10 ^ (k - 1) * 10 := by
          rw [← pow_succ]
          congr 1
          omega
        omega
      have := ih (n / 10) (Nat.div_lt_self (by omega) (by omega)) (k := k - 1)
        (by omega) this
      simp only [List.length_append, List.length_singleton]
      omega

theorem digitsToNat_replicate_zero (m : ℕ) :
    digitsToNat (List.replicate m '0') = 0 := by
  induction m with
  | zero => rfl
  | succ k ih =>
    have : digitsToNat (List.replicate (k + 1) '0')
        = digitsToNat (List.replicate k '0' ++ ['0']) := by
      rw [← List.replicate_succ' k]
    rw [this, digitsToNat_append, ih]
    rfl

theorem digitsToNat_pad0 (w : ℕ) (l : List Char) :
    digitsToNat (pad0 w l) = digitsToNat l := by
  unfold pad0
  rw [digitsToNat_append, digitsToNat_replicate_zero]
  simp

theorem pad0_length {w : ℕ} {l : List Char} (h : l.length ≤ w) :
    (pad0 w l).length = w := by
  simp [pad0]
  omega

theorem pad0_all_digits {w : ℕ} {l : List Char} (h : ∀ c ∈ l, c.isDigit = true) :
    ∀ c ∈ pad0 w l, c.isDigit = true := by
  intro c hc
  rcases List.mem_append.mp hc with h0 | h0
  · rcases List.eq_of_mem_replicate h0 with rfl
    decide
  · exact h c h0

example : pyFloat "0020.0000".data = some 20 := by
  simp +decide [pyFloat, pyFloatUnsigned, digitsToNat]

example : pyFloat "-010.2500".data = some (-41 / 4) := by
  simp +decide [pyFloat, pyFloatUnsigned, digitsToNat]
  norm_num

example : pyFloat "9999.9990".data = some (9999999 / 1000) := by
  simp +decide [pyFloat, pyFloatUnsigned, digitsToNat]
  norm_num

example : pyFloat "abcdefghi".data = none := by decide

/-- The good 4-channel line from the spec decodes to an `OK` record. -/
example :
    selRead 4 [none, none, none, none] "MySensor" "OK"
      "C00=0020.0000,C01=0021.5000,C02=-010.2500,C03=0030.0000\r\n".data 5 =
    (.ok [Entry.str "MySensor", Entry.num (some 5), Entry.str "OK",
          Entry.num (some 20), Entry.num (some (43 / 2)),
          Entry.num (some (-41 / 4)), Entry.num (some 30)],
     [some 20, some (43 / 2), some (-41 / 4), some 30]) := by
  simp +decide [selRead, selLoop, chanOutcome, test_val, pyFloat,
    pyFloatUnsigned, digitsToNat, pySplit, breakAtSep, takeRight, dropRight,
    readLineSize, preambleStr, natDigits, pad0, digitChar, mkRecord,
    PREAMBLE_SIZE, VALUE_SIZE, DELIMITER, TERMINATOR]
  norm_num

theorem selLoop_spec (temps : List (List Char)) (serLine : List Char)
    (o : ℕ → Option ℚ × Option String) :
    ∀ k i err temperature,
      (∀ j, i ≤ j → j < i + k →
        ∃ t, temps[j]? = some t ∧ chanOutcome j t serLine = o j) →
      selLoop temps serLine k i err temperature =
        (.ok (errWindow o k i err), updWindow o k i temperature) := by
  intro k
  induction k with
  | zero => intro i err temperature _; rfl
  | succ k ih =>
    intro i err temperature H
    obtain ⟨t, ht, ho⟩ := H i (le_refl i) (by omega)
    simp only [selLoop, ht, ho, errWindow, updWindow]
    exact ih (i + 1) _ _ (fun j h1 h2 => H j (by omega) (by omega))

theorem updWindow_length (o : ℕ → Option ℚ × Option String) :
    ∀ k i temperature, (updWindow o k i temperature).length = temperature.length := by
  intro k
  induction k with
  | zero => intro i t; rfl
  | succ k ih => intro i t; rw [updWindow, ih, List.length_set]

theorem getElem?_set_self {l : List (Option ℚ)} {i : ℕ} {a : Option ℚ}
    (h : i < l.length) : (l.set i a)[i]? = some a := by
  rw [List.getElem?_set_self']
  simp [List.getElem?_eq_getElem h]

theorem updWindow_getElem?_lt (o : ℕ → Option ℚ × Option String) :
    ∀ k i temperature j, j < i →
      (updWindow o k i temperature)[j]? = temperature[j]? := by
  intro k
  induction k with
  | zero => intro i t j _; rfl
  | succ k ih =>
    intro i t j hj
    rw [updWindow, ih (i + 1) _ j (by omega), List.getElem?_set_ne (by omega)]

theorem updWindow_getElem?_ge (o : ℕ → Option ℚ × Option String) :
    ∀ k i temperature j, i + k ≤ j →
      (updWindow o k i temperature)[j]? = temperature[j]? := by
  intro k
  induction k with
  | zero => intro i t j _; rfl
  | succ k ih =>
    intro i t j hj
    rw [updWindow, ih (i + 1) _ j (by omega), List.getElem?_set_ne (by omega)]

theorem updWindow_getElem?_mem (o : ℕ → Option ℚ × Option String) :
    ∀ k i temperature j, i ≤ j → j < i + k → j < temperature.length →
      (updWindow o k i temperature)[j]? = some (o j).1 := by
  intro k
  induction k with
  | zero => intro i t j h1 h2 _; omega
  | succ k ih =>
    intro i t j h1 h2 hlen
    rw [updWindow]
    rcases Nat.lt_or_ge j (i + 1) with h | h
    · have : j = i := by omega
      subst this
      rw [updWindow_getElem?_lt o k (j + 1) _ j (by omega)]
      exact getElem?_set_self hlen
    · exact ih (i + 1) _ j h (by omega) (by rw [List.length_set]; exact hlen)

theorem errWindow_of_none (o : ℕ → Option ℚ × Option String) :
    ∀ k i err, (∀ j, i ≤ j → j < i + k → (o j).2 = none) →
      errWindow o k i err = err := by
  intro k
  induction k with
  | zero => intro i err _; rfl
  | succ k ih =>
    intro i err H
    rw [errWindow, H i (le_refl i) (by omega)]
    exact ih (i + 1) err (fun j h1 h2 => H j (by omega) (by omega))

theorem errWindow_of_last (o : ℕ → Option ℚ × Option String) :
    ∀ k i err jm msg, i ≤ jm → jm < i + k → (o jm).2 = some msg →
      (∀ j, jm < j → j < i + k → (o j).2 = none) →
      errWindow o k i err = msg := by
  intro k
  induction k with
  | zero => intro i err jm msg h1 h2 _ _; omega
  | succ k ih =>
    intro i err jm msg h1 h2 hm H
    rw [errWindow]
    rcases Nat.lt_or_ge i jm with h | h
    · exact ih (i + 1) _ jm msg (by omega) (by omega) hm
        (fun j hj1 hj2 => H j hj1 (by omega))
    · have : jm = i := by omega
      subst this
      rw [hm]
      exact errWindow_of_none o k (jm + 1) msg (fun j hj1 hj2 => H j (by omega) (by omega))

theorem breakAtSep_not_mem {sep : Char} :
    ∀ {a : List Char}, sep ∉ a → breakAtSep sep a = none := by
  intro a
  induction a with
  | nil => intro _; rfl
  | cons c t ih =>
    intro h
    rw [breakAtSep]
    rw [List.mem_cons, not_or] at h
    rw [if_neg (fun hc => h.1 hc.symm), ih h.2]

theorem breakAtSep_append {sep : Char} :
    ∀ {a : List Char} (b : List Char), sep ∉ a →
      breakAtSep sep (a ++ sep :: b) = some (a, b) := by
  intro a
  induction a with
  | nil => intro b _; simp [breakAtSep]
  | cons c t ih =>
    intro b h
    rw [List.mem_cons, not_or] at h
    rw [List.cons_append, breakAtSep, if_neg (fun hc => h.1 hc.symm), ih b h.2]

theorem pySplit_joinSep {sep : Char} :
    ∀ (fs : List (List Char)) (m : ℕ), fs.length = m + 1 →
      (∀ f ∈ fs, sep ∉ f) → pySplit sep m (joinSep sep fs) = fs := by
  intro fs
  induction fs with
  | nil => intro m h _; simp at h
  | cons f fs ih =>
    intro m hlen hmem
    cases fs with
    | nil =>
      have hm : m = 0 := by
        simp only [List.length_cons, List.length_nil] at hlen
        omega
      subst hm
      simp only [joinSep, pySplit]
    | cons g fs' =>
      have hm : m = fs'.length + 1 := by
        simp only [List.length_cons] at hlen
        omega
      subst hm
      simp only [joinSep, pySplit]
      rw [breakAtSep_append _ (hmem f (List.mem_cons_self f _))]
      simp only []
      rw [ih fs'.length (by simp) (fun x hx => hmem x (List.mem_cons_of_mem f hx))]

theorem takeWhile_append_all {p : Char → Bool} :
    ∀ {a : List Char} (r : List Char), (∀ c ∈ a, p c = true) →
      (a ++ r).takeWhile p = a ++ r.takeWhile p := by
  intro a
  induction a with
  | nil => intro r _; rfl
  | cons c t ih =>
    intro r h
    rw [List.cons_append, List.takeWhile_cons, h c (List.mem_cons_self c t),
      List.cons_append, ih r (fun x hx => h x (List.mem_cons_of_mem c hx))]
    rfl

theorem dropWhile_append_all {p : Char → Bool} :
    ∀ {a : List Char} (r : List Char), (∀ c ∈ a, p c = true) →
      (a ++ r).dropWhile p = r.dropWhile p := by
  intro a
  induction a with
  | nil => intro r _; rfl
  | cons c t ih =>
    intro r h
    rw [List.cons_append, List.dropWhile_cons, h c (List.mem_cons_self c t)]
    exact ih r (fun x hx => h x (List.mem_cons_of_mem c hx))

/-- Parsing an all-digit string. -/
theorem pyFloatUnsigned_digits {a : List Char} (hne : a ≠ [])
    (ha : ∀ c ∈ a, c.isDigit = true) :
    pyFloatUnsigned a = some (digitsToNat a : ℚ) := by
  unfold pyFloatUnsigned
  have ht : a.takeWhile Char.isDigit = a := List.takeWhile_eq_self_iff.mpr ha
  have hd : a.dropWhile Char.isDigit = [] := List.dropWhile_eq_nil_iff.mpr ha
  rw [ht, hd]
  simp [hne]

/-- Parsing a fixed-point decimal `a ++ "." ++ b` with digit blocks. -/
theorem pyFloatUnsigned_decimal {a b : List Char}
    (ha : ∀ c ∈ a, c.isDigit = true) (hb : ∀ c ∈ b, c.isDigit = true)
    (hne : ¬(a = [] ∧ b = [])) :
    pyFloatUnsigned (a ++ '.' :: b) =
      some ((digitsToNat a : ℚ) + (digitsToNat b : ℚ) / 10 ^ b.length) := by
  unfold pyFloatUnsigned
  have hdot : Char.isDigit '.' = false := by decide
  have ht : (a ++ '.' :: b).takeWhile Char.isDigit = a := by
    rw [takeWhile_append_all _ ha, List.takeWhile_cons, hdot]
    simp
  have hd : (a ++ '.' :: b).dropWhile Char.isDigit = '.' :: b := by
    rw [dropWhile_append_all _ ha, List.dropWhile_cons, hdot]
    simp
  rw [ht, hd]
  have htb : b.takeWhile Char.isDigit = b := List.takeWhile_eq_self_iff.mpr hb
  have hdb : b.dropWhile Char.isDigit = [] := List.dropWhile_eq_nil_iff.mpr hb
  simp only [htb, hdb]
  rw [if_pos ⟨trivial, hne⟩]

/-- A string accepted by the float parser contains no comma. -/
theorem pyFloatUnsigned_no_comma {r : List Char}
    (h : (pyFloatUnsigned r).isSome) : ',' ∉ r := by
  have hsplit : r.takeWhile Char.isDigit ++ r.dropWhile Char.isDigit = r :=
    List.takeWhile_append_dropWhile Char.isDigit r
  intro hmem
  unfold pyFloatUnsigned at h
  split at h
  · rename_i heq
    rw [heq, List.append_nil] at hsplit
    rw [← hsplit] at hmem
    have := List.mem_takeWhile_imp hmem
    simp at this
  · rename_i r2 heq
    have hcond : r2.dropWhile Char.isDigit = [] := by
      by_contra hc
      rw [if_neg (fun hand => hc hand.1)] at h
      simp at h
    rw [heq] at hsplit
    rw [← hsplit] at hmem
    rcases List.mem_append.mp hmem with hc | hc
    · have := List.mem_takeWhile_imp hc
      simp at this
    · rcases List.mem_cons.mp hc with hx | hx
      · simp at hx
      · have hr2 : r2.takeWhile Char.isDigit ++ r2.dropWhile Char.isDigit = r2 :=
          List.takeWhile_append_dropWhile Char.isDigit r2
        rw [hcond, List.append_nil] at hr2
        rw [← hr2] at hx
        have := List.mem_takeWhile_imp hx
        simp at this
  · simp at h

theorem pyFloat_no_comma {w : List Char} (h : (pyFloat w).isSome) : ',' ∉ w := by
  unfold pyFloat at h
  intro hmem
  split at h
  · rename_i r
    rcases List.mem_cons.mp hmem with hx | hx
    · simp at hx
    · exact pyFloatUnsigned_no_comma h hx
  · rename_i r
    rcases List.mem_cons.mp hmem with hx | hx
    · simp at hx
    · refine pyFloatUnsigned_no_comma ?_ hx
      rcases Option.isSome_iff_exists.mp h with ⟨v, hv⟩
      rcases Option.map_eq_some'.mp hv with ⟨u, hu, _⟩
      exact Option.isSome_iff_exists.mpr ⟨u, hu⟩
  · exact pyFloatUnsigned_no_comma h hmem

/-! ### Preamble strings and well-framed fields -/

theorem natDigits_length_ge_three {n : ℕ} (h : 100 ≤ n) :
    3 ≤ (natDigits n).length := by
  rw [natDigits]
  rw [dif_neg (by omega)]
  rw [natDigits]
  rw [dif_neg (by omega : ¬ n / 10 < 10)]
  have h1 : 1 ≤ (natDigits (n / 10 / 10)).length :=
    List.length_pos.mpr (natDigits_ne_nil _)
  simp only [List.length_append, List.length_singleton]
  omega

theorem preambleStr_length {i : ℕ} (h : i ≤ 99) :
    (preambleStr i).length = 4 := by
  have h2 : (natDigits i).length ≤ 2 :=
    natDigits_length_le (by omega) (by omega)
  have h1 : 1 ≤ (natDigits i).length := List.length_pos.mpr (natDigits_ne_nil _)
  simp [preambleStr, pad0]
  omega

theorem preambleStr_length_ge {i : ℕ} (h : 100 ≤ i) :
    5 ≤ (preambleStr i).length := by
  have h2 := natDigits_length_ge_three h
  simp [preambleStr, pad0]
  omega

theorem preambleStr_length_ge_four (i : ℕ) : 4 ≤ (preambleStr i).length := by
  rcases Nat.lt_or_ge i 100 with h | h
  · rw [preambleStr_length (by omega)]
  · have := preambleStr_length_ge h
    omega

theorem preambleStr_no_comma (i : ℕ) : ',' ∉ preambleStr i := by
  intro h
  rcases List.mem_cons.mp h with h | h
  · exact absurd h (by decide)
  · rcases List.mem_append.mp h with h | h
    · have := pad0_all_digits (natDigits_all_digits i) ',' h
      simp at this
    · rcases List.mem_singleton.mp h with h
      exact absurd h (by decide)

/-- Lower bound on a sum of entries that are each at least `c`. -/
theorem sum_map_ge {α : Type} (f : α → ℕ) (c : ℕ) :
    ∀ (l : List α), (∀ x ∈ l, c ≤ f x) → c * l.length ≤ (l.map f).sum := by
  intro l
  induction l with
  | nil => simp
  | cons a t ih =>
    intro hge
    simp only [List.map_cons, List.sum_cons, List.length_cons, Nat.mul_succ]
    have h1 : c ≤ f a := hge a (List.mem_cons_self a t)
    have h2 := ih (fun y hy => hge y (List.mem_cons_of_mem a hy))
    omega

/-- If every entry is at least `c` and the sum equals `c * length`,
every entry equals `c`. -/
theorem sum_map_forcing {α : Type} (f : α → ℕ) (c : ℕ) :
    ∀ (l : List α), (∀ x ∈ l, c ≤ f x) →
      (l.map f).sum = c * l.length → ∀ x ∈ l, f x = c := by
  intro l
  induction l with
  | nil => intro _ _ x hx; simp at hx
  | cons a t ih =>
    intro hge hsum x hx
    have hta : c ≤ f a := hge a (List.mem_cons_self a t)
    have htsum : c * t.length ≤ (t.map f).sum :=
      sum_map_ge f c t (fun y hy => hge y (List.mem_cons_of_mem a hy))
    simp only [List.map_cons, List.sum_cons, List.length_cons, Nat.mul_succ] at hsum
    have hfa : f a = c := by omega
    rcases List.mem_cons.mp hx with rfl | hx2
    · exact hfa
    · refine ih (fun y hy => hge y (List.mem_cons_of_mem a hy)) ?_ x hx2
      omega

theorem joinSep_length {sep : Char} :
    ∀ (fs : List (List Char)), fs ≠ [] →
      (joinSep sep fs).length = (fs.map List.length).sum + fs.length - 1 := by
  intro fs
  induction fs with
  | nil => intro h; exact absurd rfl h
  | cons f fs ih =>
    intro _
    match fs with
    | [] => simp [joinSep]
    | g :: fs' =>
      have := ih (by simp)
      simp only [joinSep, List.length_append, List.length_cons, this,
        List.map_cons, List.sum_cons]
      have hpos : 1 ≤ (g :: fs').length := by simp
      simp only [List.length_cons] at *
      omega

/-! ### Reading a well-framed line -/

/-- `SelTemperature.read` on a transport `OK` result whose line is a comma
join of `N` comma-free fields of the expected total length: the terminator
and size checks pass, the split returns the fields, and the loop outcome is
described by `o`. -/
theorem selRead_fields (N : ℕ) (hN : 1 ≤ N) (temperature : List (Option ℚ))
    (name : String) (now : ℚ) (fields : List (List Char))
    (o : ℕ → Option ℚ × Option String)
    (hlen : fields.length = N)
    (hcomma : ∀ f ∈ fields, ',' ∉ f)
    (hsize : (joinSep ',' fields).length + TERMINATOR.length = readLineSize N)
    (ho : ∀ j, j < N → ∃ t, fields[j]? = some t ∧
        chanOutcome j t (joinSep ',' fields ++ TERMINATOR) = o j) :
    selRead N temperature name "OK" (joinSep ',' fields ++ TERMINATOR) now =
      (.ok (mkRecord name now (errWindow o N 0 "OK")
          (updWindow o N 0 temperature)),
        updWindow o N 0 temperature) := by
  have hterm : takeRight TERMINATOR.length (joinSep ',' fields ++ TERMINATOR)
      = TERMINATOR := by
    unfold takeRight
    rw [List.length_append]
    have : (joinSep ',' fields).length + TERMINATOR.length - TERMINATOR.length
        = (joinSep ',' fields).length := by omega
    rw [this, List.drop_left' rfl]
  have hlsize : (joinSep ',' fields ++ TERMINATOR).length = readLineSize N := by
    rw [List.length_append, hsize]
  have hline : dropRight TERMINATOR.length (joinSep ',' fields ++ TERMINATOR)
      = joinSep ',' fields := by
    unfold dropRight
    rw [List.length_append]
    have : (joinSep ',' fields).length + TERMINATOR.length - TERMINATOR.length
        = (joinSep ',' fields).length := by omega
    rw [this, List.take_left' rfl]
  have hsplit : pySplit ',' (N - 1) (joinSep ',' fields) = fields := by
    refine pySplit_joinSep fields (N - 1) (by omega) hcomma
  unfold selRead
  rw [if_pos rfl, if_pos ⟨hterm, hlsize⟩, hline, hsplit]
  rw [selLoop_spec fields (joinSep ',' fields ++ TERMINATOR) o N 0 "OK" temperature
    (fun j h1 h2 => ho j (by omega))]

/-- A field `pre i ++ w` with a 4-character preamble and a parsing value of
at most 9 characters passes `_test_val` and stores the parsed value. -/
theorem chanOutcome_accept {i : ℕ} {w serLine : List Char} {v : ℚ}
    (hpre : (preambleStr i).length = 4)
    (hw : w.length ≤ 9)
    (hv : pyFloat w = some v) :
    chanOutcome i (preambleStr i ++ w) serLine = (some v, none) := by
  have htake : (preambleStr i ++ w).take PREAMBLE_SIZE = preambleStr i :=
    List.take_left' hpre
  have hdrop : (preambleStr i ++ w).drop PREAMBLE_SIZE = w :=
    List.drop_left' hpre
  have hw9 : w.take (PREAMBLE_SIZE + VALUE_SIZE + DELIMITER.length - 1
      - PREAMBLE_SIZE) = w := by
    show w.take 9 = w
    exact List.take_of_length_le hw
  have htv : test_val (preambleStr i) (preambleStr i ++ w) = true := by
    unfold test_val
    rw [htake, hdrop, hw9, hv]
    simp
  unfold chanOutcome
  rw [htv, Bool.true_or, if_pos rfl, hdrop, hv]

/-- Like `chanOutcome_accept` but matching the legacy 1-indexed preamble,
as the mock sensor produces with `count_offset = 1`. -/
theorem chanOutcome_accept_old {i : ℕ} {w serLine : List Char} {v : ℚ}
    (hpre : (preambleStr (i + 1)).length = 4)
    (hw : w.length ≤ 9)
    (hv : pyFloat w = some v) :
    chanOutcome i (preambleStr (i + 1) ++ w) serLine = (some v, none) := by
  have htake : (preambleStr (i + 1) ++ w).take PREAMBLE_SIZE = preambleStr (i + 1) :=
    List.take_left' hpre
  have hdrop : (preambleStr (i + 1) ++ w).drop PREAMBLE_SIZE = w :=
    List.drop_left' hpre
  have hw9 : w.take (PREAMBLE_SIZE + VALUE_SIZE + DELIMITER.length - 1
      - PREAMBLE_SIZE) = w := by
    show w.take 9 = w
    exact List.take_of_length_le hw
  have htv : test_val (preambleStr (i + 1)) (preambleStr (i + 1) ++ w) = true := by
    unfold test_val
    rw [htake, hdrop, hw9, hv]
    simp
  unfold chanOutcome
  rw [htv, Bool.or_true, if_pos rfl, hdrop, hv]

/-! ### Reshaping the mock line into joined fields -/

theorem joinSep_append_single {sep : Char} :
    ∀ (fs : List (List Char)) (x : List Char), fs ≠ [] →
      joinSep sep (fs ++ [x]) = joinSep sep fs ++ sep :: x := by
  intro fs
  induction fs with
  | nil => intro x h; exact absurd rfl h
  | cons f fs ih =>
    intro x _
    cases fs with
    | nil => simp [joinSep]
    | cons g fs' =>
      have h2 := ih x (by simp)
      simp only [List.cons_append, List.append_eq, joinSep] at h2 ⊢
      rw [h2]
      simp

theorem joinSep_range_eq_sepJoin (body : ℕ → List Char) :
    ∀ n : ℕ, joinSep ',' ((List.range (n + 1)).map body)
      = sepJoin body n ++ body n := by
  intro n
  induction n with
  | zero => simp [sepJoin, joinSep, List.range_succ]
  | succ n ih =>
    rw [show List.range (n + 1 + 1) = List.range (n + 1) ++ [n + 1] from
      List.range_succ (n + 1), List.map_append, List.map_cons,
      List.map_nil, joinSep_append_single _ _ (by simp), ih]
    have : sepJoin body (n + 1) = sepJoin body n ++ (body n ++ [',']) := by
      unfold sepJoin
      rw [List.range_succ, List.map_append, List.flatten_append]
      simp
    rw [this]
    simp [List.append_assoc]

theorem mockLine_eq_joinSep (offset : ℕ) (nanChannel : Option ℕ)
    (term : List Char) (draw : ℕ → ℚ) (n : ℕ) :
    mockLine (n + 1) offset nanChannel term draw =
      joinSep ',' ((List.range (n + 1)).map
        (fun i => mockField offset nanChannel i (draw i))) ++ term := by
  have hbody : ∀ ch i, formatTemperature ch offset nanChannel term i (draw i)
      = mockField offset nanChannel i (draw i)
        ++ (if i = ch - 1 then term else DELIMITER) := by
    intro ch i
    unfold formatTemperature mockField
    split <;> rfl
  have hstep : mockLine (n + 1) offset nanChannel term draw
      = ((List.range n).map
          (fun i => formatTemperature (n + 1) offset nanChannel term i (draw i))).flatten
        ++ (mockField offset nanChannel n (draw n) ++ term) := by
    unfold mockLine
    rw [List.range_succ, List.map_append, List.flatten_append]
    simp only [List.map_cons, List.map_nil, List.flatten, hbody, if_pos rfl]
    simp
  have hinner : ∀ i ∈ List.range n,
      formatTemperature (n + 1) offset nanChannel term i (draw i)
        = mockField offset nanChannel i (draw i) ++ [','] := by
    intro i hi
    have : i < n := List.mem_range.mp hi
    rw [hbody, if_neg (by omega)]
    rfl
  rw [hstep, List.map_congr_left hinner]
  rw [joinSep_range_eq_sepJoin]
  unfold sepJoin
  simp [List.append_assoc]

/-! ### Parsing back what the mock sensor formats -/

theorem pyFloat_cons_digit {c : Char} {r : List Char} (hc : c.isDigit = true) :
    pyFloat (c :: r) = pyFloatUnsigned (c :: r) := by
  unfold pyFloat
  split
  · rename_i heq
    rw [List.cons_eq_cons] at heq
    rw [heq.1] at hc
    simp at hc
  · rename_i heq
    rw [List.cons_eq_cons] at heq
    rw [heq.1] at hc
    simp at hc
  · rfl

theorem pyFloat_pad_decimal (a b : ℕ)
    (hb4 : (natDigits b).length ≤ 4) :
    pyFloat (pad0 4 (natDigits a) ++ '.' :: pad0 4 (natDigits b)) =
      some ((a : ℚ) + (b : ℚ) / 10000) := by
  have hA : ∀ c ∈ pad0 4 (natDigits a), c.isDigit = true :=
    pad0_all_digits (natDigits_all_digits a)
  have hB : ∀ c ∈ pad0 4 (natDigits b), c.isDigit = true :=
    pad0_all_digits (natDigits_all_digits b)
  have hAlen : 1 ≤ (pad0 4 (natDigits a)).length := by
    have : 1 ≤ (natDigits a).length := List.length_pos.mpr (natDigits_ne_nil a)
    simp [pad0]
    omega
  have hstep : pyFloat (pad0 4 (natDigits a) ++ '.' :: pad0 4 (natDigits b)) =
      pyFloatUnsigned (pad0 4 (natDigits a) ++ '.' :: pad0 4 (natDigits b)) := by
    cases hA0 : pad0 4 (natDigits a) with
    | nil => rw [hA0] at hAlen; simp at hAlen
    | cons c r =>
      have hc : c.isDigit = true := by
        refine hA c ?_
        rw [hA0]
        exact List.mem_cons_self c r
      rw [List.cons_append, pyFloat_cons_digit hc]
  rw [hstep, pyFloatUnsigned_decimal hA hB]
  · rw [digitsToNat_pad0, digitsToNat_pad0, digitsToNat_natDigits,
      digitsToNat_natDigits, pad0_length hb4]
    norm_num
  · intro hand
    have := hand.1
    rw [this] at hAlen
    simp at hAlen

/-- Formatting a temperature in the operating range `[18, 30]` yields a
9-character decimal that parses back to the rounded value, which is again
in `[18, 30]`. -/
theorem format09_4_spec {t : ℚ} (h1 : 18 ≤ t) (h2 : t ≤ 30) :
    ∃ m : ℕ, 180000 ≤ m ∧ m ≤ 300000 ∧
      (format09_4 t).length = 9 ∧
      pyFloat (format09_4 t) = some ((m : ℚ) / 10000) ∧
      18 ≤ (m : ℚ) / 10000 ∧ (m : ℚ) / 10000 ≤ 30 := by
  have hneg : ¬ t < 0 := by linarith
  have hlow : (180000 : ℤ) ≤ round (t * 10000) := by
    have hc : ((180000 : ℤ) : ℚ) = (180000 : ℚ) := by norm_num
    have h180 : round ((180000 : ℚ)) = (180000 : ℤ) := by
      rw [← hc, round_intCast]
    rw [← h180, round_eq, round_eq]
    exact Int.floor_le_floor (by linarith)
  have hhigh : round (t * 10000) ≤ (300000 : ℤ) := by
    have hc : ((300000 : ℤ) : ℚ) = (300000 : ℚ) := by norm_num
    have h300 : round ((300000 : ℚ)) = (300000 : ℤ) := by
      rw [← hc, round_intCast]
    rw [← h300, round_eq, round_eq]
    exact Int.floor_le_floor (by linarith)
  refine ⟨(round (t * 10000)).toNat, by omega, by omega, ?_, ?_, ?_, ?_⟩
  · have hdiv : (round (t * 10000)).toNat / 10000 < 100 := by omega
    have hd2 : (natDigits ((round (t * 10000)).toNat / 10000)).length ≤ 2 :=
      natDigits_length_le (by omega) (by norm_num at hdiv ⊢; omega)
    have hm4 : (natDigits ((round (t * 10000)).toNat % 10000)).length ≤ 4 :=
      natDigits_length_le (by omega)
        (by have := Nat.mod_lt (round (t * 10000)).toNat
              (show 0 < 10000 by norm_num)
            norm_num
            omega)
    unfold format09_4
    rw [if_neg hneg]
    rw [List.length_append, pad0_length (by omega), List.length_cons,
      pad0_length hm4]
  · have hm4 : (natDigits ((round (t * 10000)).toNat % 10000)).length ≤ 4 :=
      natDigits_length_le (by omega)
        (by have := Nat.mod_lt (round (t * 10000)).toNat
              (show 0 < 10000 by norm_num)
            norm_num
            omega)
    unfold format09_4
    rw [if_neg hneg, pyFloat_pad_decimal _ _ hm4]
    congr 1
    field_simp
    norm_cast
    omega
  · rw [le_div_iff (by norm_num : (0 : ℚ) < 10000)]
    have : (180000 : ℚ) ≤ ((round (t * 10000)).toNat : ℚ) := by
      exact_mod_cast (by omega : (180000 : ℕ) ≤ (round (t * 10000)).toNat)
    linarith
  · rw [div_le_iff (by norm_num : (0 : ℚ) < 10000)]
    have : ((round (t * 10000)).toNat : ℚ) ≤ (300000 : ℚ) := by
      exact_mod_cast (by omega : (round (t * 10000)).toNat ≤ (300000 : ℕ))
    linarith

/-- The NaN-channel sentinel `9999.9990` parses to the finite `9999.999`. -/
theorem pyFloat_sentinel : pyFloat "9999.9990".data = some (9999999 / 1000) := by
  simp +decide [pyFloat, pyFloatUnsigned, digitsToNat]
  norm_num

theorem updWindow_eq_map (o : ℕ → Option ℚ × Option String) (N : ℕ)
    (temperature : List (Option ℚ)) (htl : temperature.length = N) :
    updWindow o N 0 temperature = (List.range N).map (fun i => (o i).1) := by
  refine List.ext_getElem? ?_
  intro i
  rcases Nat.lt_or_ge i N with h | h
  · rw [updWindow_getElem?_mem o N 0 temperature i (by omega) (by omega) (by omega),
      List.getElem?_map, List.getElem?_range h]
    rfl
  · rw [updWindow_getElem?_ge o N 0 temperature i (by omega), List.getElem?_map]
    have h1 : temperature[i]? = none := by
      rw [List.getElem?_eq_none_iff]
      omega
    have h2 : (List.range N)[i]? = none := by
      rw [List.getElem?_eq_none_iff, List.length_range]
      omega
    rw [h1, h2]
    rfl

theorem sum_map_const {α : Type} (f : α → ℕ) (c : ℕ) :
    ∀ l : List α, (∀ x ∈ l, f x = c) → (l.map f).sum = c * l.length := by
  intro l
  induction l with
  | nil => simp
  | cons a t ih =>
    intro h
    simp only [List.map_cons, List.sum_cons, List.length_cons, Nat.mul_succ]
    rw [h a (List.mem_cons_self a t),
      ih (fun y hy => h y (List.mem_cons_of_mem a hy))]
    omega

theorem mockField_eq (offset : ℕ) (nanChannel : Option ℕ) (i : ℕ) (t : ℚ) :
    mockField offset nanChannel i t = preambleStr (i + offset) ++
      (if nanChannel = some i then "9999.9990".data else format09_4 t) := by
  unfold mockField
  split <;> rfl

/-- Decoding one full mock line: for `N` channels, a two-digit-safe channel
numbering, and draws in the operating range, `SelTemperature.read` accepts
every channel and returns an `OK` record of the per-channel values. -/
theorem mock_decode (N offset : ℕ) (nanChannel : Option ℕ) (draw : ℕ → ℚ)
    (temperature : List (Option ℚ)) (name : String) (now : ℚ)
    (hN : 1 ≤ N) (hoff : offset ≤ 1) (h100 : N + offset ≤ 100)
    (hdraw : ∀ i, i < N → 18 ≤ draw i ∧ draw i ≤ 30)
    (htl : temperature.length = N) :
    ∃ vals : ℕ → ℚ,
      (∀ i, i < N →
        (nanChannel = some i → vals i = 9999999 / 1000) ∧
        (nanChannel ≠ some i → 18 ≤ vals i ∧ vals i ≤ 30)) ∧
      selRead N temperature name "OK"
          (mockLine N offset nanChannel TERMINATOR draw) now
        = (.ok (mkRecord name now "OK"
            ((List.range N).map (fun i => some (vals i)))),
          (List.range N).map (fun i => some (vals i))) := by
  have hex : ∀ i : ℕ, ∃ v : ℚ, i < N →
      pyFloat (if nanChannel = some i then "9999.9990".data
        else format09_4 (draw i)) = some v ∧
      (if nanChannel = some i then "9999.9990".data
        else format09_4 (draw i)).length = 9 ∧
      (nanChannel = some i → v = 9999999 / 1000) ∧
      (nanChannel ≠ some i → 18 ≤ v ∧ v ≤ 30) := by
    intro i
    by_cases hnan : nanChannel = some i
    · refine ⟨9999999 / 1000, fun _ => ?_⟩
      simp only [if_pos hnan]
      exact ⟨pyFloat_sentinel, by decide, fun _ => by trivial, fun hne => absurd hnan hne⟩
    · by_cases hi : i < N
      · obtain ⟨m, _, _, hflen, hfval, hm1, hm2⟩ :=
          format09_4_spec (hdraw i hi).1 (hdraw i hi).2
        refine ⟨(m : ℚ) / 10000, fun _ => ?_⟩
        simp only [if_neg hnan]
        exact ⟨hfval, hflen, fun hc => absurd hc hnan, fun _ => ⟨hm1, hm2⟩⟩
      · exact ⟨0, fun hc => absurd hc hi⟩
  choose vals hvals using hex
  have hpre4 : ∀ i, i < N → (preambleStr (i + offset)).length = 4 := by
    intro i hi
    exact preambleStr_length (by omega)
  have hfield13 : ∀ i, i < N →
      (mockField offset nanChannel i (draw i)).length = 13 := by
    intro i hi
    rw [mockField_eq, List.length_append, hpre4 i hi, (hvals i hi).2.1]
  have hfieldcomma : ∀ i, i < N →
      ',' ∉ mockField offset nanChannel i (draw i) := by
    intro i hi hc
    rw [mockField_eq] at hc
    rcases List.mem_append.mp hc with hc | hc
    · exact preambleStr_no_comma _ hc
    · refine pyFloat_no_comma ?_ hc
      rw [(hvals i hi).1]
      rfl
  have hco : ∀ (s : List Char) i, i < N →
      chanOutcome i (mockField offset nanChannel i (draw i)) s
        = (some (vals i), none) := by
    intro s i hi
    rw [mockField_eq]
    have hw9 : (if nanChannel = some i then "9999.9990".data
        else format09_4 (draw i)).length ≤ 9 := by
      rw [(hvals i hi).2.1]
    interval_cases offset
    · have h0 : i + 0 = i := by omega
      rw [h0]
      exact chanOutcome_accept (by rw [← h0]; exact hpre4 i hi) hw9 (hvals i hi).1
    · exact chanOutcome_accept_old (hpre4 i hi) hw9 (hvals i hi).1
  obtain ⟨n, rfl⟩ : ∃ n, N = n + 1 := ⟨N - 1, by omega⟩
  set fields := (List.range (n + 1)).map
    (fun i => mockField offset nanChannel i (draw i)) with hfieldsdef
  have hfields_get : ∀ j, j < n + 1 →
      fields[j]? = some (mockField offset nanChannel j (draw j)) := by
    intro j hj
    rw [hfieldsdef, List.getElem?_map, List.getElem?_range hj]
    rfl
  have hml : mockLine (n + 1) offset nanChannel TERMINATOR draw
      = joinSep ',' fields ++ TERMINATOR := by
    rw [mockLine_eq_joinSep]
  have hsum : (fields.map List.length).sum = 13 * fields.length := by
    refine sum_map_const List.length 13 fields ?_
    intro x hx
    rw [hfieldsdef] at hx
    rcases List.mem_map.mp hx with ⟨i, hi, rfl⟩
    exact hfield13 i (List.mem_range.mp hi)
  have hflen : fields.length = n + 1 := by
    rw [hfieldsdef, List.length_map, List.length_range]
  have hsize : (joinSep ',' fields).length + TERMINATOR.length
      = readLineSize (n + 1) := by
    rw [joinSep_length fields (by rw [← List.length_pos]; omega), hsum, hflen]
    show 13 * (n + 1) + (n + 1) - 1 + 2 = (n + 1) * (4 + 9 + 1) - 1 + 2
    ring_nf
  have hcomma : ∀ f ∈ fields, ',' ∉ f := by
    intro f hf
    rw [hfieldsdef] at hf
    rcases List.mem_map.mp hf with ⟨i, hi, rfl⟩
    exact hfieldcomma i (List.mem_range.mp hi)
  have ho : ∀ j, j < n + 1 → ∃ t, fields[j]? = some t ∧
      chanOutcome j t (joinSep ',' fields ++ TERMINATOR)
        = (fun i => ((some (vals i) : Option ℚ), (none : Option String))) j := by
    intro j hj
    exact ⟨mockField offset nanChannel j (draw j), hfields_get j hj,
      hco _ j hj⟩
  refine ⟨vals, fun i hi => ⟨(hvals i hi).2.2.1, (hvals i hi).2.2.2⟩, ?_⟩
  rw [hml]
  rw [selRead_fields (n + 1) (by omega) temperature name now fields _
    hflen hcomma hsize ho]
  rw [errWindow_of_none _ _ _ _ (fun j _ _ => rfl),
    updWindow_eq_map _ _ _ htl]

/-! ### Error-string facts -/

theorem termErr_ne_ok (s : List Char) : termErr s ≠ "OK" := by
  intro h
  have hd : (termErr s).data.length = 2 := by
    rw [h]
    decide
  unfold termErr at hd
  rw [String.data_append, List.length_append] at hd
  have h55 : 2 < ("Malformed response. Terminator or line size incorrect: ").data.length := by decide
  omega

theorem chanErr_ne_ok (s : List Char) : chanErr s ≠ "OK" := by
  intro h
  have hd : (chanErr s).data.length = 2 := by
    rw [h]
    decide
  unfold chanErr at hd
  rw [String.data_append, List.length_append] at hd
  have h64 : 2 < ("Malformed response. Channel preamble or channel data incorrect: ").data.length := by decide
  omega

theorem convErr_ne_ok (s : List Char) : convErr s ≠ "OK" := by
  intro h
  have hd : (convErr s).data.length = 2 := by
    rw [h]
    decide
  unfold convErr at hd
  rw [String.data_append, List.length_append] at hd
  have h61 : 2 < ("Temperature data error. Could not convert value(s) to float: ").data.length := by decide
  omega

theorem termErr_ne_empty (s : List Char) : termErr s ≠ "" := by
  intro h
  have hd : (termErr s).data.length = 0 := by
    rw [h]
    decide
  unfold termErr at hd
  rw [String.data_append, List.length_append] at hd
  have h55 : 2 < ("Malformed response. Terminator or line size incorrect: ").data.length := by decide
  omega

theorem chanErr_ne_empty (s : List Char) : chanErr s ≠ "" := by
  intro h
  have hd : (chanErr s).data.length = 0 := by
    rw [h]
    decide
  unfold chanErr at hd
  rw [String.data_append, List.length_append] at hd
  have h64 : 2 < ("Malformed response. Channel preamble or channel data incorrect: ").data.length := by decide
  omega

theorem convErr_ne_empty (s : List Char) : convErr s ≠ "" := by
  intro h
  have hd : (convErr s).data.length = 0 := by
    rw [h]
    decide
  unfold convErr at hd
  rw [String.data_append, List.length_append] at hd
  have h61 : 2 < ("Temperature data error. Could not convert value(s) to float: ").data.length := by decide
  omega

theorem chanErr_ne_convErr (s : List Char) : chanErr s ≠ convErr s := by
  intro h
  have hd := congrArg String.data h
  unfold chanErr convErr at hd
  rw [String.data_append, String.data_append] at hd
  have h0 := congrArg (fun l => l[0]?) hd
  simp only at h0
  rw [List.getElem?_append_left (by decide), List.getElem?_append_left (by decide)] at h0
  have hM : ("Malformed response. Channel preamble or channel data incorrect: ").data[0]?
      = some 'M' := by decide
  have hT : ("Temperature data error. Could not convert value(s) to float: ").data[0]?
      = some 'T' := by decide
  rw [hM, hT] at h0
  simp at h0

/-! ### Error and length behaviour of the channel loop -/

theorem chanOutcome_snd_cases (i : ℕ) (t s : List Char) :
    (chanOutcome i t s).2 = none ∨ (chanOutcome i t s).2 = some (chanErr s)
      ∨ (chanOutcome i t s).2 = some (convErr s) := by
  unfold chanOutcome
  split
  · split
    · left; rfl
    · right; right; rfl
  · right; left; rfl

theorem selLoop_ok_err (temps : List (List Char)) (serLine : List Char) :
    ∀ (k i : ℕ) (err : String) (temp : List (Option ℚ)) (e : String)
      (T : List (Option ℚ)),
      selLoop temps serLine k i err temp = (.ok e, T) →
      (e = err ∨ e = chanErr serLine ∨ e = convErr serLine)
        ∧ T.length = temp.length := by
  intro k
  induction k with
  | zero =>
    intro i err temp e T h
    rw [selLoop] at h
    have h1 : Except.ok err = (Except.ok e : Except String String) ∧ temp = T := by
      constructor
      · exact congrArg Prod.fst h
      · exact congrArg Prod.snd h
    obtain ⟨he, hT⟩ := h1
    simp only [Except.ok.injEq] at he
    exact ⟨Or.inl he.symm, hT ▸ rfl⟩
  | succ k ih =>
    intro i err temp e T h
    rw [selLoop] at h
    cases hget : temps[i]? with
    | none =>
      rw [hget] at h
      have := congrArg Prod.fst h
      simp at this
    | some t =>
      rw [hget] at h
      obtain ⟨hcase, hlen⟩ := ih (i + 1) _ _ e T h
      rw [List.length_set] at hlen
      refine ⟨?_, hlen⟩
      rcases chanOutcome_snd_cases i t serLine with hc | hc | hc
      · rw [hc] at hcase
        exact hcase
      · rw [hc] at hcase
        rcases hcase with h1 | h1 | h1
        · right; left; exact h1
        · right; left; exact h1
        · right; right; exact h1
      · rw [hc] at hcase
        rcases hcase with h1 | h1 | h1
        · right; right; exact h1
        · right; left; exact h1
        · right; right; exact h1

/-- C1: for an `N`-channel SEL decoder, a transport `OK` line made of `N`
comma-delimited fields, field `i` being the preamble `C{i:02}=` followed
by 9 value characters that parse as a float, with terminator `\r\n` and
the expected total length, decodes to the record
`[device_name, now, "OK", v_0, …, v_{N-1}]`. -/
theorem sel_read_well_formed (N : ℕ) (hN : 1 ≤ N)
    (temperature : List (Option ℚ)) (htl : temperature.length = N)
    (name : String) (now : ℚ)
    (fields : List (List Char)) (v : ℕ → ℚ)
    (hlen : fields.length = N)
    (hfields : ∀ j, j < N → ∃ w, fields[j]? = some (preambleStr j ++ w) ∧
      w.length = 9 ∧ pyFloat w = some (v j))
    (hsize : (joinSep ',' fields ++ TERMINATOR).length = readLineSize N) :
    selRead N temperature name "OK" (joinSep ',' fields ++ TERMINATOR) now
      = (.ok (Entry.str name :: Entry.num (some now) :: Entry.str "OK"
            :: (List.range N).map (fun j => Entry.num (some (v j)))),
        (List.range N).map (fun j => some (v j))) := by
  have hge13 : ∀ f ∈ fields, 13 ≤ f.length := by
    intro f hf
    obtain ⟨j, hj⟩ := List.mem_iff_getElem?.mp hf
    have hjN : j < N := by
      obtain ⟨hjlt, -⟩ := List.getElem?_eq_some_iff.mp hj
      omega
    obtain ⟨w, hw, hw9, _⟩ := hfields j hjN
    rw [hj] at hw
    have hfw : f = preambleStr j ++ w := by
      injection hw
    rw [hfw, List.length_append, hw9]
    have := preambleStr_length_ge_four j
    omega
  have hsum13 : (fields.map List.length).sum = 13 * N := by
    have hjl : (joinSep ',' fields).length
        = (fields.map List.length).sum + fields.length - 1 :=
      joinSep_length fields (by rw [← List.length_pos]; omega)
    rw [List.length_append] at hsize
    rw [hjl, hlen] at hsize
    have hRS : readLineSize N = 14 * N + 1 := by
      unfold readLineSize PREAMBLE_SIZE VALUE_SIZE DELIMITER TERMINATOR
      simp
      omega
    have hges : 13 * N ≤ (fields.map List.length).sum := by
      have := sum_map_ge List.length 13 fields hge13
      rw [hlen] at this
      omega
    rw [hRS] at hsize
    have hterm2 : TERMINATOR.length = 2 := by decide
    rw [hterm2] at hsize
    omega
  have hall13 : ∀ f ∈ fields, f.length = 13 := by
    refine sum_map_forcing List.length 13 fields hge13 ?_
    rw [hlen]
    omega
  have hpre4 : ∀ j, j < N → (preambleStr j).length = 4 := by
    intro j hjN
    obtain ⟨w, hw, hw9, _⟩ := hfields j hjN
    have hmem : preambleStr j ++ w ∈ fields := List.getElem?_mem hw
    have := hall13 _ hmem
    rw [List.length_append, hw9] at this
    omega
  have hcomma : ∀ f ∈ fields, ',' ∉ f := by
    intro f hf hc
    obtain ⟨j, hj⟩ := List.mem_iff_getElem?.mp hf
    have hjN : j < N := by
      obtain ⟨hjlt, -⟩ := List.getElem?_eq_some_iff.mp hj
      omega
    obtain ⟨w, hw, hw9, hv⟩ := hfields j hjN
    rw [hj] at hw
    have hfw : f = preambleStr j ++ w := by injection hw
    rw [hfw] at hc
    rcases List.mem_append.mp hc with hc | hc
    · exact preambleStr_no_comma j hc
    · refine pyFloat_no_comma ?_ hc
      rw [hv]
      rfl
  have hsize2 : (joinSep ',' fields).length + TERMINATOR.length
      = readLineSize N := by
    rw [List.length_append] at hsize
    exact hsize
  have ho : ∀ j, j < N → ∃ t, fields[j]? = some t ∧
      chanOutcome j t (joinSep ',' fields ++ TERMINATOR)
        = (fun i => ((some (v i) : Option ℚ), (none : Option String))) j := by
    intro j hjN
    obtain ⟨w, hw, hw9, hv⟩ := hfields j hjN
    exact ⟨preambleStr j ++ w, hw,
      chanOutcome_accept (hpre4 j hjN) (by omega) hv⟩
  rw [selRead_fields N hN temperature name now fields _ hlen hcomma hsize2 ho,
    errWindow_of_none _ _ _ _ (fun j _ _ => rfl),
    updWindow_eq_map _ _ _ htl]
  unfold mkRecord
  rw [List.map_map]
  rfl

/-- C1 witness: the spec's concrete 4-channel line. -/
theorem sel_read_well_formed_witness :
    selRead 4 [none, none, none, none] "MySensor" "OK"
        (joinSep ','
          ["C00=0020.0000".data, "C01=0021.5000".data,
           "C02=-010.2500".data, "C03=0030.0000".data] ++ TERMINATOR) 5
      = (.ok [Entry.str "MySensor", Entry.num (some 5), Entry.str "OK",
          Entry.num (some 20), Entry.num (some (43 / 2)),
          Entry.num (some (-41 / 4)), Entry.num (some 30)],
        [some 20, some (43 / 2), some (-41 / 4), some 30]) := by
  have h := sel_read_well_formed 4 (by omega) [none, none, none, none] rfl
    "MySensor" 5
    ["C00=0020.0000".data, "C01=0021.5000".data,
     "C02=-010.2500".data, "C03=0030.0000".data]
    (fun j => if j = 0 then 20 else if j = 1 then 43 / 2
      else if j = 2 then -41 / 4 else 30)
    rfl
    (by
      intro j hj
      interval_cases j
      · refine ⟨"0020.0000".data, ?_, by decide, ?_⟩
        · simp +decide [preambleStr, natDigits, pad0, digitChar]
        · simp +decide [pyFloat, pyFloatUnsigned, digitsToNat]
      · refine ⟨"0021.5000".data, ?_, by decide, ?_⟩
        · simp +decide [preambleStr, natDigits, pad0, digitChar]
        · simp +decide [pyFloat, pyFloatUnsigned, digitsToNat]
          norm_num
      · refine ⟨"-010.2500".data, ?_, by decide, ?_⟩
        · simp +decide [preambleStr, natDigits, pad0, digitChar]
        · simp +decide [pyFloat, pyFloatUnsigned, digitsToNat]
          norm_num
      · refine ⟨"0030.0000".data, ?_, by decide, ?_⟩
        · simp +decide [preambleStr, natDigits, pad0, digitChar]
        · simp +decide [pyFloat, pyFloatUnsigned, digitsToNat])
    (by decide)
  rw [h]
  simp +decide [List.range_succ]

/-- C2 (code bug): after a successful 4-channel read, a transport `OK`
line that fails the terminator/size check produces a record whose error
begins with the malformed-response message but whose channel values are
the retained previous temperatures, not `NaN` — `read` never resets
`self.temperature` on this branch, contradicting its docstring. The first
conjunct is the second (malformed) read from the stale state; the second
conjunct shows that a prior successful read leaves exactly that state. -/
theorem sel_read_stale_after_malformed :
    selRead 4 [some 20, some (43 / 2), some (-41 / 4), some 30] "MySensor" "OK"
        "C00=0020.0000\r\n".data 6
      = (.ok [Entry.str "MySensor", Entry.num (some 6),
          Entry.str (termErr "C00=0020.0000\r\n".data),
          Entry.num (some 20), Entry.num (some (43 / 2)),
          Entry.num (some (-41 / 4)), Entry.num (some 30)],
        [some 20, some (43 / 2), some (-41 / 4), some 30])
    ∧ (selRead 4 [none, none, none, none] "MySensor" "OK"
        "C00=0020.0000,C01=0021.5000,C02=-010.2500,C03=0030.0000\r\n".data 5).2
      = [some 20, some (43 / 2), some (-41 / 4), some 30] := by
  constructor
  · simp +decide [selRead, takeRight, readLineSize, mkRecord,
      PREAMBLE_SIZE, VALUE_SIZE, DELIMITER, TERMINATOR]
  · simp +decide [selRead, selLoop, chanOutcome, test_val, pyFloat,
      pyFloatUnsigned, digitsToNat, pySplit, breakAtSep, takeRight, dropRight,
      readLineSize, preambleStr, natDigits, pad0, digitChar, mkRecord,
      PREAMBLE_SIZE, VALUE_SIZE, DELIMITER, TERMINATOR]
    norm_num

/-- C3 (amended): when the transport reports an error other than `"OK"`,
`read` returns a record whose error field is exactly that transport error
code, and whose channel values are the temperatures retained from before
the read — all `NaN` only on a decoder that has not yet read
successfully. -/
theorem sel_read_transport_error (N : ℕ) (temperature : List (Option ℚ))
    (name errIn : String) (serLine : List Char) (now : ℚ)
    (h : errIn ≠ "OK") :
    selRead N temperature name errIn serLine now
      = (.ok (mkRecord name now errIn temperature), temperature) := by
  unfold selRead
  rw [if_neg h]

/-- C3 witness: a fresh 2-channel decoder and a non-ASCII transport
error. -/
theorem sel_read_transport_error_witness :
    selRead 2 [none, none] "W3" "Non-ASCII data in response." [] 0
      = (.ok (mkRecord "W3" 0 "Non-ASCII data in response." [none, none]),
        [none, none]) :=
  sel_read_transport_error 2 [none, none] "W3"
    "Non-ASCII data in response." [] 0 (by decide)

/-- C3 counterexample: after a prior successful read, a transport timeout
is reported with the previous values (20, 21.5, −10.25, 30), not with
four `NaN` as the claim states. -/
theorem sel_read_transport_error_stale :
    selRead 4 [some 20, some (43 / 2), some (-41 / 4), some 30] "MySensor"
        "Timed out with incomplete response." [] 7
      = (.ok [Entry.str "MySensor", Entry.num (some 7),
          Entry.str "Timed out with incomplete response.",
          Entry.num (some 20), Entry.num (some (43 / 2)),
          Entry.num (some (-41 / 4)), Entry.num (some 30)],
        [some 20, some (43 / 2), some (-41 / 4), some 30]) := by
  simp +decide [selRead, mkRecord]

/-- C6 (code bug): a transport `OK` line of the expected length 57 for 4
channels, ending in the terminator but containing no commas, makes the
channel loop index past the end of the split list: `temps[1]` raises
`IndexError`, so `read` does propagate an exception to its caller. -/
theorem sel_read_index_error :
    selRead 4 [none, none, none, none] "MySensor" "OK"
        "xxxxxxxxxxxxxxxxxxxxxxxxxxxxxxxxxxxxxxxxxxxxxxxxxxxxxxx\r\n".data 0
      = (.error "IndexError", [none, none, none, none]) := by
  simp +decide [selRead, selLoop, chanOutcome, test_val, pyFloat,
    pyFloatUnsigned, digitsToNat, pySplit, breakAtSep, takeRight, dropRight,
    readLineSize, preambleStr, natDigits, pad0, digitChar,
    PREAMBLE_SIZE, VALUE_SIZE, DELIMITER, TERMINATOR]

/-- Shared setting for the channel-validation claims: a well-framed line of
`N` comma-free frame-layout fields (4-character preamble + 9 value
characters), with the loop outcome described per channel. -/
theorem selRead_frame_fields (N : ℕ) (hN : 1 ≤ N)
    (temperature : List (Option ℚ)) (htl : temperature.length = N)
    (name : String) (now : ℚ) (fields : List (List Char))
    (hlen : fields.length = N)
    (hf13 : ∀ f ∈ fields, f.length = 13)
    (hcomma : ∀ f ∈ fields, ',' ∉ f) :
    selRead N temperature name "OK" (joinSep ',' fields ++ TERMINATOR) now
      = (.ok (mkRecord name now
          (errWindow (fun j => chanOutcome j (fields.getD j [])
            (joinSep ',' fields ++ TERMINATOR)) N 0 "OK")
          ((List.range N).map (fun j => (chanOutcome j (fields.getD j [])
            (joinSep ',' fields ++ TERMINATOR)).1))),
        (List.range N).map (fun j => (chanOutcome j (fields.getD j [])
          (joinSep ',' fields ++ TERMINATOR)).1)) := by
  have hsize : (joinSep ',' fields).length + TERMINATOR.length
      = readLineSize N := by
    rw [joinSep_length fields (by rw [← List.length_pos]; omega),
      sum_map_const List.length 13 fields hf13, hlen]
    show 13 * N + N - 1 + 2 = N * (4 + 9 + 1) - 1 + 2
    ring_nf
  have hget : ∀ j, j < N → fields[j]? = some (fields.getD j []) := by
    intro j hj
    rw [List.getD_eq_getElem?_getD, List.getElem?_eq_getElem (by omega)]
    rfl
  have ho : ∀ j, j < N → ∃ t, fields[j]? = some t ∧
      chanOutcome j t (joinSep ',' fields ++ TERMINATOR)
        = chanOutcome j (fields.getD j []) (joinSep ',' fields ++ TERMINATOR) :=
    fun j hj => ⟨fields.getD j [], hget j hj, rfl⟩
  rw [selRead_fields N hN temperature name now fields _ hlen hcomma hsize ho,
    updWindow_eq_map _ _ _ htl]

/-- C4: on a well-framed line split into `N` frame-layout fields, field
`i` is accepted exactly when its first 4 characters equal `C{i:02}=` or
the legacy `C{i+1:02}=` and its value characters parse as a float; an
accepted field stores its parsed value, a rejected field stores `NaN` and
contributes the channel-malformed error; if every field is accepted the
error is `"OK"`, and when channels fail the reported error is that of the
most recent (highest-index) failing channel — the channel-malformed
message carrying the received line. -/
theorem sel_read_channel_checks (N : ℕ) (hN : 1 ≤ N)
    (temperature : List (Option ℚ)) (htl : temperature.length = N)
    (name : String) (now : ℚ) (fields : List (List Char))
    (hlen : fields.length = N)
    (hf13 : ∀ f ∈ fields, f.length = 13)
    (hcomma : ∀ f ∈ fields, ',' ∉ f) :
    ∃ e T, selRead N temperature name "OK" (joinSep ',' fields ++ TERMINATOR) now
        = (.ok (mkRecord name now e T), T) ∧
      (∀ j t, j < N → fields[j]? = some t →
        (fieldAccepted j t = true ↔
          ((t.take 4 = preambleStr j ∨ t.take 4 = preambleStr (j + 1)) ∧
            (pyFloat (t.drop 4)).isSome = true))) ∧
      (∀ j t q, j < N → fields[j]? = some t → pyFloat (t.drop 4) = some q →
        fieldAccepted j t = true → T[j]? = some (some q)) ∧
      (∀ j t, j < N → fields[j]? = some t → fieldAccepted j t = false →
        T[j]? = some none) ∧
      ((∀ j t, j < N → fields[j]? = some t → fieldAccepted j t = true) →
        e = "OK") ∧
      (∀ j t, j < N → fields[j]? = some t → fieldAccepted j t = false →
        (∀ j2 t2, j < j2 → j2 < N → fields[j2]? = some t2 →
          fieldAccepted j2 t2 = true) →
        e = chanErr (joinSep ',' fields ++ TERMINATOR)) := by
  set serLine := joinSep ',' fields ++ TERMINATOR with hserdef
  have hget : ∀ j t, j < N → fields[j]? = some t → fields.getD j [] = t := by
    intro j t hj hjt
    rw [List.getD_eq_getElem?_getD, hjt]
    rfl
  have htake9 : ∀ j t, j < N → fields[j]? = some t →
      (t.drop PREAMBLE_SIZE).take (PREAMBLE_SIZE + VALUE_SIZE
        + DELIMITER.length - 1 - PREAMBLE_SIZE) = t.drop 4 := by
    intro j t hj hjt
    have h13 : t.length = 13 := hf13 t (List.getElem?_mem hjt)
    show (t.drop 4).take 9 = t.drop 4
    refine List.take_of_length_le ?_
    rw [List.length_drop, h13]
  have hout_acc : ∀ j t, j < N → fields[j]? = some t →
      fieldAccepted j t = true →
      ∃ q, pyFloat (t.drop 4) = some q ∧
        chanOutcome j t serLine = (some q, none) := by
    intro j t hj hjt hacc
    have hsome : (pyFloat (t.drop 4)).isSome = true := by
      unfold fieldAccepted test_val at hacc
      rw [htake9 j t hj hjt] at hacc
      rcases Bool.or_eq_true_iff.mp hacc with h | h
      · exact (Bool.and_eq_true_iff.mp h).2
      · exact (Bool.and_eq_true_iff.mp h).2
    obtain ⟨q, hq⟩ := Option.isSome_iff_exists.mp hsome
    refine ⟨q, hq, ?_⟩
    unfold chanOutcome
    unfold fieldAccepted at hacc
    rw [hacc, if_pos rfl]
    show (match pyFloat (t.drop PREAMBLE_SIZE) with
      | some v => ((some v : Option ℚ), (none : Option String))
      | none => (none, some (convErr serLine))) = (some q, none)
    rw [show t.drop PREAMBLE_SIZE = t.drop 4 from rfl, hq]
  have hout_rej : ∀ j t, j < N → fields[j]? = some t →
      fieldAccepted j t = false →
      chanOutcome j t serLine = (none, some (chanErr serLine)) := by
    intro j t hj hjt hrej
    unfold chanOutcome
    unfold fieldAccepted at hrej
    rw [hrej, if_neg (by simp)]
  refine ⟨errWindow (fun j => chanOutcome j (fields.getD j []) serLine) N 0 "OK",
    (List.range N).map (fun j => (chanOutcome j (fields.getD j []) serLine).1),
    selRead_frame_fields N hN temperature htl name now fields hlen hf13 hcomma,
    ?_, ?_, ?_, ?_, ?_⟩
  · intro j t hj hjt
    unfold fieldAccepted test_val
    rw [htake9 j t hj hjt]
    constructor
    · intro h
      rcases Bool.or_eq_true_iff.mp h with h | h
      · obtain ⟨h1, h2⟩ := Bool.and_eq_true_iff.mp h
        exact ⟨Or.inl (of_decide_eq_true h1), h2⟩
      · obtain ⟨h1, h2⟩ := Bool.and_eq_true_iff.mp h
        exact ⟨Or.inr (of_decide_eq_true h1), h2⟩
    · intro ⟨h1, h2⟩
      rcases h1 with h1 | h1
      · exact Bool.or_eq_true_iff.mpr (Or.inl
          (Bool.and_eq_true_iff.mpr ⟨decide_eq_true h1, h2⟩))
      · exact Bool.or_eq_true_iff.mpr (Or.inr
          (Bool.and_eq_true_iff.mpr ⟨decide_eq_true h1, h2⟩))
  · intro j t q hj hjt hq hacc
    rw [List.getElem?_map, List.getElem?_range hj]
    obtain ⟨q2, hq2, hco⟩ := hout_acc j t hj hjt hacc
    simp only [Option.map_some']
    rw [hget j t hj hjt, hco]
    rw [hq] at hq2
    injection hq2 with hq2
    rw [hq2]
  · intro j t hj hjt hrej
    rw [List.getElem?_map, List.getElem?_range hj]
    simp only [Option.map_some']
    rw [hget j t hj hjt, hout_rej j t hj hjt hrej]
  · intro hall
    refine errWindow_of_none _ _ _ _ ?_
    intro j h0 hjN
    obtain ⟨q, _, hco⟩ := hout_acc j (fields.getD j [])
      (by omega) (by rw [List.getD_eq_getElem?_getD,
        List.getElem?_eq_getElem (by omega)]; rfl)
      (hall j (fields.getD j []) (by omega)
        (by rw [List.getD_eq_getElem?_getD,
          List.getElem?_eq_getElem (by omega)]; rfl))
    rw [hco]
  · intro j t hj hjt hrej hlater
    refine errWindow_of_last _ _ _ _ j (chanErr serLine) (by omega) (by omega)
      ?_ ?_
    · rw [hget j t hj hjt, hout_rej j t hj hjt hrej]
    · intro j2 hj2 hj2N
      have hj2get : fields[j2]? = some (fields.getD j2 []) := by
        rw [List.getD_eq_getElem?_getD, List.getElem?_eq_getElem (by omega)]
        rfl
      obtain ⟨q, _, hco⟩ := hout_acc j2 (fields.getD j2 []) (by omega) hj2get
        (hlater j2 (fields.getD j2 []) hj2 (by omega) hj2get)
      rw [hco]

/-- C4 witness: two frame-layout fields, the second with a bad preamble. -/
theorem sel_read_channel_checks_witness :
    ∃ e T, selRead 2 [none, none] "W4" "OK"
        (joinSep ',' ["C00=0020.0000".data, "Cxx=0021.5000".data]
          ++ TERMINATOR) 1
        = (.ok (mkRecord "W4" 1 e T), T) ∧
      (∀ j t, j < 2 →
        ["C00=0020.0000".data, "Cxx=0021.5000".data][j]? = some t →
        (fieldAccepted j t = true ↔
          ((t.take 4 = preambleStr j ∨ t.take 4 = preambleStr (j + 1)) ∧
            (pyFloat (t.drop 4)).isSome = true))) ∧
      (∀ j t q, j < 2 →
        ["C00=0020.0000".data, "Cxx=0021.5000".data][j]? = some t →
        pyFloat (t.drop 4) = some q →
        fieldAccepted j t = true → T[j]? = some (some q)) ∧
      (∀ j t, j < 2 →
        ["C00=0020.0000".data, "Cxx=0021.5000".data][j]? = some t →
        fieldAccepted j t = false → T[j]? = some none) ∧
      ((∀ j t, j < 2 →
        ["C00=0020.0000".data, "Cxx=0021.5000".data][j]? = some t →
        fieldAccepted j t = true) → e = "OK") ∧
      (∀ j t, j < 2 →
        ["C00=0020.0000".data, "Cxx=0021.5000".data][j]? = some t →
        fieldAccepted j t = false →
        (∀ j2 t2, j < j2 → j2 < 2 →
          ["C00=0020.0000".data, "Cxx=0021.5000".data][j2]? = some t2 →
          fieldAccepted j2 t2 = true) →
        e = chanErr (joinSep ','
          ["C00=0020.0000".data, "Cxx=0021.5000".data] ++ TERMINATOR)) :=
  sel_read_channel_checks 2 (by omega) [none, none] rfl "W4" 1
    ["C00=0020.0000".data, "Cxx=0021.5000".data] rfl
    (by intro f hf; fin_cases hf <;> decide)
    (by intro f hf; fin_cases hf <;> decide)

/-- A field that fails both `_test_val` checks makes the channel `NaN`
and contributes the channel-malformed error. -/
theorem chanOutcome_of_not_accepted {j : ℕ} {t serLine : List Char}
    (h : fieldAccepted j t = false) :
    chanOutcome j t serLine = (none, some (chanErr serLine)) := by
  unfold chanOutcome
  unfold fieldAccepted at h
  rw [h, if_neg (by simp)]

/-- On a frame-layout field (13 characters) the loop iteration never
contributes the conversion error: the error slot is empty or the
channel-malformed message. -/
theorem chanOutcome_snd13 {j : ℕ} {t serLine : List Char}
    (h13 : t.length = 13) :
    (chanOutcome j t serLine).2 = none
      ∨ (chanOutcome j t serLine).2 = some (chanErr serLine) := by
  by_cases hacc : fieldAccepted j t = true
  · left
    have htake9 : (t.drop PREAMBLE_SIZE).take (PREAMBLE_SIZE + VALUE_SIZE
        + DELIMITER.length - 1 - PREAMBLE_SIZE) = t.drop 4 := by
      show (t.drop 4).take 9 = t.drop 4
      refine List.take_of_length_le ?_
      rw [List.length_drop, h13]
    have hsome : (pyFloat (t.drop 4)).isSome = true := by
      unfold fieldAccepted test_val at hacc
      rw [htake9] at hacc
      rcases Bool.or_eq_true_iff.mp hacc with h | h
      · exact (Bool.and_eq_true_iff.mp h).2
      · exact (Bool.and_eq_true_iff.mp h).2
    obtain ⟨q, hq⟩ := Option.isSome_iff_exists.mp hsome
    unfold chanOutcome
    unfold fieldAccepted at hacc
    rw [hacc, if_pos rfl]
    show (match pyFloat (t.drop PREAMBLE_SIZE) with
      | some v => ((some v : Option ℚ), (none : Option String))
      | none => (none, some (convErr serLine))).2 = none
    rw [show t.drop PREAMBLE_SIZE = t.drop 4 from rfl, hq]
  · right
    have hfalse : fieldAccepted j t = false := by
      revert hacc
      cases fieldAccepted j t <;> simp
    rw [chanOutcome_of_not_accepted hfalse]

/-- When every channel in the window contributes no error or the same
message, an accumulator already holding that message keeps it. -/
theorem errWindow_keep (o : ℕ → Option ℚ × Option String) :
    ∀ (k i : ℕ) (msg : String),
      (∀ j, i ≤ j → j < i + k → (o j).2 = none ∨ (o j).2 = some msg) →
      errWindow o k i msg = msg := by
  intro k
  induction k with
  | zero => intro i msg _; rfl
  | succ k ih =>
    intro i msg H
    rw [errWindow]
    rcases H i (le_refl i) (by omega) with h | h
    · rw [h]
      simp only [Option.getD_none]
      exact ih (i + 1) msg (fun j h1 h2 => H j (by omega) (by omega))
    · rw [h]
      simp only [Option.getD_some]
      exact ih (i + 1) msg (fun j h1 h2 => H j (by omega) (by omega))

/-- When every channel in the window contributes no error or the same
message, and at least one contributes it, the loop reports exactly that
message, whatever the starting accumulator. -/
theorem errWindow_of_mem (o : ℕ → Option ℚ × Option String) :
    ∀ (k i : ℕ) (err msg : String),
      (∀ j, i ≤ j → j < i + k → (o j).2 = none ∨ (o j).2 = some msg) →
      (∃ j0, i ≤ j0 ∧ j0 < i + k ∧ (o j0).2 = some msg) →
      errWindow o k i err = msg := by
  intro k
  induction k with
  | zero =>
    intro i err msg _ hex
    obtain ⟨j0, h1, h2, _⟩ := hex
    omega
  | succ k ih =>
    intro i err msg H hex
    obtain ⟨j0, hj1, hj2, hj3⟩ := hex
    rw [errWindow]
    rcases H i (le_refl i) (by omega) with h | h
    · rw [h]
      simp only [Option.getD_none]
      have hj0ne : i ≠ j0 := by
        intro heq
        rw [← heq] at hj3
        rw [h] at hj3
        exact absurd hj3 (by simp)
      exact ih (i + 1) err msg (fun j h1 h2 => H j (by omega) (by omega))
        ⟨j0, by omega, by omega, hj3⟩
    · rw [h]
      simp only [Option.getD_some]
      exact errWindow_keep o k (i + 1) msg
        (fun j h1 h2 => H j (by omega) (by omega))

/-- C5 (amended): for every well-framed line of `N` frame-layout fields
(4-character preamble followed by 9 value characters) and every field `i`
whose 4-character preamble matches but whose 9 value characters do not
parse as a float, `read()` sets channel `i` to `NaN` and the record's
error string is the channel-malformed message (`"Malformed response.
Channel preamble or channel data incorrect"`), not the float-conversion
error: `_test_val` itself float-tests the value characters, so such a
field is rejected as malformed channel data, and on frame-layout fields
every failing channel contributes that same message, whatever the other
fields hold. -/
theorem sel_read_unparseable_value (N : ℕ) (hN : 1 ≤ N)
    (temperature : List (Option ℚ)) (htl : temperature.length = N)
    (name : String) (now : ℚ) (fields : List (List Char))
    (hlen : fields.length = N)
    (hf13 : ∀ f ∈ fields, f.length = 13)
    (hcomma : ∀ f ∈ fields, ',' ∉ f)
    (i : ℕ) (hi : i < N) (w : List Char)
    (hfi : fields[i]? = some (preambleStr i ++ w))
    (hw9 : w.length = 9)
    (hwbad : pyFloat w = none) :
    ∃ T, selRead N temperature name "OK" (joinSep ',' fields ++ TERMINATOR) now
        = (.ok (mkRecord name now
            (chanErr (joinSep ',' fields ++ TERMINATOR)) T), T) ∧
      T[i]? = some none ∧
      chanErr (joinSep ',' fields ++ TERMINATOR)
        ≠ convErr (joinSep ',' fields ++ TERMINATOR) := by
  have hpre4 : (preambleStr i).length = 4 := by
    have h13 := hf13 _ (List.getElem?_mem hfi)
    rw [List.length_append, hw9] at h13
    omega
  have hwtake : w.take 9 = w := by
    refine List.take_of_length_le ?_
    omega
  have hrej : fieldAccepted i (preambleStr i ++ w) = false := by
    unfold fieldAccepted test_val
    have hdrop : (preambleStr i ++ w).drop PREAMBLE_SIZE = w :=
      List.drop_left' hpre4
    rw [hdrop]
    have h9 : (PREAMBLE_SIZE + VALUE_SIZE + DELIMITER.length - 1
        - PREAMBLE_SIZE) = 9 := by decide
    rw [h9, hwtake, hwbad]
    simp
  have hget : ∀ j, j < N → fields[j]? = some (fields.getD j []) := by
    intro j hj
    rw [List.getD_eq_getElem?_getD, List.getElem?_eq_getElem (by omega)]
    rfl
  have hgetDi : fields.getD i [] = preambleStr i ++ w := by
    rw [List.getD_eq_getElem?_getD, hfi]
    rfl
  have hdichot : ∀ j, 0 ≤ j → j < 0 + N →
      (chanOutcome j (fields.getD j []) (joinSep ',' fields ++ TERMINATOR)).2
        = none
      ∨ (chanOutcome j (fields.getD j []) (joinSep ',' fields ++ TERMINATOR)).2
        = some (chanErr (joinSep ',' fields ++ TERMINATOR)) := by
    intro j _ hj
    exact chanOutcome_snd13 (hf13 _ (List.getElem?_mem (hget j (by omega))))
  have hhit : ∃ j0, 0 ≤ j0 ∧ j0 < 0 + N ∧
      (chanOutcome j0 (fields.getD j0 []) (joinSep ',' fields ++ TERMINATOR)).2
        = some (chanErr (joinSep ',' fields ++ TERMINATOR)) := by
    refine ⟨i, by omega, by omega, ?_⟩
    rw [hgetDi, chanOutcome_of_not_accepted hrej]
  rw [selRead_frame_fields N hN temperature htl name now fields hlen hf13 hcomma]
  rw [errWindow_of_mem _ N 0 "OK" (chanErr (joinSep ',' fields ++ TERMINATOR))
    hdichot hhit]
  refine ⟨_, rfl, ?_, chanErr_ne_convErr (joinSep ',' fields ++ TERMINATOR)⟩
  rw [List.getElem?_map, List.getElem?_range hi]
  simp only [Option.map_some']
  rw [hgetDi, chanOutcome_of_not_accepted hrej]

/-- C5 counterexample: for one channel, the line `C00=abcdefghi\r\n` has a
matching preamble and unparseable value characters, yet the record error
is the channel-malformed message — which differs from the
float-conversion message the claim requires. -/
theorem sel_read_unparseable_value_cx :
    selRead 1 [none] "S5" "OK" "C00=abcdefghi\r\n".data 0
      = (.ok [Entry.str "S5", Entry.num (some 0),
          Entry.str (chanErr "C00=abcdefghi\r\n".data), Entry.num none],
        [none])
    ∧ chanErr "C00=abcdefghi\r\n".data ≠ convErr "C00=abcdefghi\r\n".data := by
  constructor
  · simp +decide [selRead, selLoop, chanOutcome, test_val, pyFloat,
      pyFloatUnsigned, digitsToNat, pySplit, breakAtSep, takeRight, dropRight,
      readLineSize, preambleStr, natDigits, pad0, digitChar, mkRecord,
      PREAMBLE_SIZE, VALUE_SIZE, DELIMITER, TERMINATOR]
  · exact chanErr_ne_convErr _

/-- C5 witness: the amended theorem at the one-channel line
`C00=abcdefghi\r\n`. -/
theorem sel_read_unparseable_value_witness :
    ∃ T, selRead 1 [none] "W5" "OK"
        (joinSep ',' ["C00=abcdefghi".data] ++ TERMINATOR) 2
        = (.ok (mkRecord "W5" 2
            (chanErr (joinSep ',' ["C00=abcdefghi".data] ++ TERMINATOR)) T), T) ∧
      T[0]? = some none ∧
      chanErr (joinSep ',' ["C00=abcdefghi".data] ++ TERMINATOR)
        ≠ convErr (joinSep ',' ["C00=abcdefghi".data] ++ TERMINATOR) :=
  sel_read_unparseable_value 1 (by omega) [none] rfl "W5" 2
    ["C00=abcdefghi".data] rfl
    (by intro f hf; fin_cases hf <;> decide)
    (by intro f hf; fin_cases hf <;> decide)
    0 (by omega) "abcdefghi".data
    (by simp +decide [preambleStr, natDigits, pad0, digitChar])
    (by decide)
    (by decide)

/-- C7 (amended): for every `N ≥ 1` and `count_offset ∈ {0, 1}` with
`N + count_offset ≤ 100` (so that every channel label keeps the two-digit
form the frame layout requires), `nan_channel = None`, and draws in
`[18, 30]`, the line produced by `MockTemperatureSensor.readline` (with
the terminator `\r\n` that `SelTemperature.start` pushes onto the mock)
decodes under `read` to an `"OK"` record whose `N` channel values all lie
in `[18.0, 30.0]`. -/
theorem mock_roundtrip (N offset : ℕ) (draw : ℕ → ℚ)
    (temperature : List (Option ℚ)) (name : String) (now : ℚ)
    (hN : 1 ≤ N) (hoff : offset ≤ 1) (h100 : N + offset ≤ 100)
    (hdraw : ∀ i, i < N → 18 ≤ draw i ∧ draw i ≤ 30)
    (htl : temperature.length = N) :
    ∃ vals : ℕ → ℚ, (∀ i, i < N → 18 ≤ vals i ∧ vals i ≤ 30) ∧
      selRead N temperature name "OK"
          (mockLine N offset none TERMINATOR draw) now
        = (.ok (mkRecord name now "OK"
            ((List.range N).map (fun i => some (vals i)))),
          (List.range N).map (fun i => some (vals i))) := by
  obtain ⟨vals, hprops, heq⟩ := mock_decode N offset none draw temperature
    name now hN hoff h100 hdraw htl
  exact ⟨vals, fun i hi => (hprops i hi).2 (by simp), heq⟩

/-- C7 witness: two channels with the legacy 1-indexed labels and a
constant draw of 20 degrees. -/
theorem mock_roundtrip_witness :
    ∃ vals : ℕ → ℚ, (∀ i, i < 2 → 18 ≤ vals i ∧ vals i ≤ 30) ∧
      selRead 2 [none, none] "MockSensor" "OK"
          (mockLine 2 1 none TERMINATOR (fun _ => 20)) 3
        = (.ok (mkRecord "MockSensor" 3 "OK"
            ((List.range 2).map (fun i => some (vals i)))),
          (List.range 2).map (fun i => some (vals i))) :=
  mock_roundtrip 2 1 (fun _ => 20) [none, none] "MockSensor" 3
    (by omega) (by omega) (by omega)
    (by intro i hi; norm_num) rfl

/-- C7 counterexample: at `N = 100` with `count_offset = 1` the last
channel label is `C100=`, the line is longer than the expected frame, and
the decode reports the terminator/size error instead of `"OK"` — the
claim fails without the two-digit-label bound. -/
theorem mock_roundtrip_cx :
    (selRead 100 (List.replicate 100 none) "MockSensor" "OK"
        (mockLine 100 1 none TERMINATOR (fun _ => 20)) 0).1
      = .ok (mkRecord "MockSensor" 0
          (termErr (mockLine 100 1 none TERMINATOR (fun _ => 20)))
          (List.replicate 100 none))
    ∧ termErr (mockLine 100 1 none TERMINATOR (fun _ => 20)) ≠ "OK" := by
  have hfmt9 : (format09_4 20).length = 9 := by
    obtain ⟨m, _, _, h9, _, _, _⟩ :=
      format09_4_spec (by norm_num : (18 : ℚ) ≤ 20) (by norm_num)
    exact h9
  have hfield : ∀ j, mockField 1 none j 20
      = preambleStr (j + 1) ++ format09_4 20 := by
    intro j
    rw [mockField_eq]
    simp
  have hf13 : ∀ j, j < 99 → (mockField 1 (none : Option ℕ) j 20).length = 13 := by
    intro j hj
    rw [hfield, List.length_append, preambleStr_length (by omega), hfmt9]
  have hf99 : 14 ≤ (mockField 1 (none : Option ℕ) 99 20).length := by
    rw [hfield, List.length_append, hfmt9]
    have := preambleStr_length_ge (show 100 ≤ 99 + 1 by omega)
    omega
  have hml : mockLine 100 1 none TERMINATOR (fun _ => 20)
      = joinSep ',' ((List.range 100).map (fun i => mockField 1 none i 20))
        ++ TERMINATOR :=
    mockLine_eq_joinSep 1 none TERMINATOR (fun _ => 20) 99
  have hsum : 1301 ≤ (((List.range 100).map (fun i => mockField 1 none i 20)).map
      List.length).sum := by
    rw [show List.range 100 = List.range 99 ++ [99] from List.range_succ 99,
      List.map_append, List.map_append, List.sum_append]
    have h1 : ((List.range 99).map (fun i => mockField 1 none i 20) |>.map
        List.length).sum = 13 * 99 := by
      rw [List.map_map]
      have : ((List.range 99).map (List.length ∘ fun i => mockField 1 none i 20)).sum
          = 13 * ((List.range 99)).length := by
        refine sum_map_const _ 13 _ ?_
        intro x hx
        exact hf13 x (List.mem_range.mp hx)
      rw [this, List.length_range]
    rw [h1]
    simp only [List.map_cons, List.map_nil, List.sum_cons, List.sum_nil]
    omega
  have hlen : 1402 ≤ (mockLine 100 1 none TERMINATOR (fun _ => 20)).length := by
    rw [hml, List.length_append,
      joinSep_length _ (by simp), List.length_map, List.length_range]
    have ht2 : TERMINATOR.length = 2 := by decide
    rw [ht2]
    omega
  have hne : (mockLine 100 1 none TERMINATOR (fun _ => 20)).length
      ≠ readLineSize 100 := by
    have : readLineSize 100 = 1401 := by decide
    omega
  constructor
  · unfold selRead
    rw [if_pos rfl, if_neg (fun hand => hne hand.2)]
  · exact termErr_ne_ok _

/-- C10: `MockTemperatureSensor.readline` returns the error code `"OK"`
on every call, and with `nan_channel = k` and `count_offset = 0` the
produced line decodes to an `"OK"` record carrying the finite sentinel
value `9999.999` — not `NaN` — at channel `k`. -/
theorem mock_readline_ok_nan (name : String) (N k : ℕ) (draw : ℕ → ℚ)
    (temperature : List (Option ℚ)) (now : ℚ)
    (hN : 1 ≤ N) (h100 : N ≤ 100) (hk : k < N)
    (hdraw : ∀ i, i < N → 18 ≤ draw i ∧ draw i ≤ 30)
    (htl : temperature.length = N) :
    (∀ (name2 : String) (ch off : ℕ) (nc : Option ℕ) (tm : List Char)
      (dr : ℕ → ℚ), (mockReadline name2 ch off nc tm dr).2.1 = "OK") ∧
    ∃ r T, selRead N temperature name "OK"
        (mockLine N 0 (some k) TERMINATOR draw) now = (.ok r, T) ∧
      r[2]? = some (.str "OK") ∧ T[k]? = some (some (9999999 / 1000)) := by
  refine ⟨fun _ _ _ _ _ _ => rfl, ?_⟩
  obtain ⟨vals, hprops, heq⟩ := mock_decode N 0 (some k) draw temperature
    name now hN (by omega) (by omega) hdraw htl
  refine ⟨mkRecord name now "OK" ((List.range N).map (fun i => some (vals i))),
    (List.range N).map (fun i => some (vals i)), heq, by simp [mkRecord], ?_⟩
  rw [List.getElem?_map, List.getElem?_range hk]
  simp only [Option.map_some']
  rw [(hprops k hk).1 rfl]

/-- C10 witness: three channels with the NaN sentinel on channel 1. -/
theorem mock_readline_ok_nan_witness :
    (∀ (name2 : String) (ch off : ℕ) (nc : Option ℕ) (tm : List Char)
      (dr : ℕ → ℚ), (mockReadline name2 ch off nc tm dr).2.1 = "OK") ∧
    ∃ r T, selRead 3 [none, none, none] "MockSensor" "OK"
        (mockLine 3 0 (some 1) TERMINATOR (fun _ => 25)) 4 = (.ok r, T) ∧
      r[2]? = some (.str "OK") ∧ T[1]? = some (some (9999999 / 1000)) :=
  mock_readline_ok_nan "MockSensor" 3 1 (fun _ => 25) [none, none, none] 4
    (by omega) (by omega) (by omega) (by intro i hi; norm_num) rfl

/-- C8 (amended): whenever `read` completes normally (it can instead
raise `IndexError`, see the C6 analysis), and the transport error string
is non-empty (the transport contract only produces `"OK"` or one of two
non-empty messages), the returned record has length exactly `3 + N`,
index 0 the transport's device name, index 1 the finite clock value —
non-negative whenever the clock is — and index 2 either `"OK"` or a
non-empty error string. -/
theorem sel_read_record_shape (N : ℕ) (temperature : List (Option ℚ))
    (htl : temperature.length = N) (name errIn : String) (herr : errIn ≠ "")
    (serLine : List Char) (now : ℚ) (hnow : 0 ≤ now)
    (r : List Entry)
    (hr : (selRead N temperature name errIn serLine now).1 = .ok r) :
    r.length = 3 + N ∧ r[0]? = some (.str name) ∧
      (r[1]? = some (.num (some now)) ∧ 0 ≤ now) ∧
      ∃ e, r[2]? = some (.str e) ∧ (e = "OK" ∨ e ≠ "") := by
  have hshape : ∃ e T, r = mkRecord name now e T ∧ T.length = N
      ∧ (e = "OK" ∨ e ≠ "") := by
    unfold selRead at hr
    by_cases h1 : errIn = "OK"
    · rw [if_pos h1] at hr
      by_cases h2 : takeRight TERMINATOR.length serLine = TERMINATOR
          ∧ serLine.length = readLineSize N
      · rw [if_pos h2] at hr
        rcases hloop : selLoop (pySplit ',' (N - 1)
            (dropRight TERMINATOR.length serLine)) serLine N 0 errIn temperature
          with ⟨res, T⟩
        rw [hloop] at hr
        cases res with
        | ok e =>
          simp only [Except.ok.injEq] at hr
          obtain ⟨hcase, hTlen⟩ := selLoop_ok_err _ _ _ _ _ _ _ _ hloop
          refine ⟨e, T, hr.symm, by omega, ?_⟩
          rcases hcase with hc | hc | hc
          · left; rw [hc, h1]
          · right; rw [hc]; exact chanErr_ne_empty serLine
          · right; rw [hc]; exact convErr_ne_empty serLine
        | error ex => simp at hr
      · rw [if_neg h2] at hr
        simp only [Except.ok.injEq] at hr
        exact ⟨termErr serLine, temperature, hr.symm, htl,
          Or.inr (termErr_ne_empty serLine)⟩
    · rw [if_neg h1] at hr
      simp only [Except.ok.injEq] at hr
      exact ⟨errIn, temperature, hr.symm, htl, Or.inr herr⟩
  obtain ⟨e, T, hrec, hTlen, he⟩ := hshape
  subst hrec
  refine ⟨?_, by simp [mkRecord], ⟨by simp [mkRecord], hnow⟩, e,
    by simp [mkRecord], he⟩
  simp [mkRecord]
  omega

/-- C8 counterexample: on the comma-free full-length line of `z`
characters the decode raises `IndexError` and produces no record at all,
so the stated record-shape invariant does not cover every transport
result. -/
theorem sel_read_record_shape_cx :
    (selRead 4 [none, none, none, none] "Sensor8" "OK"
        "zzzzzzzzzzzzzzzzzzzzzzzzzzzzzzzzzzzzzzzzzzzzzzzzzzzzzzz\r\n".data 0).1
      = .error "IndexError" := by
  simp +decide [selRead, selLoop, chanOutcome, test_val, pyFloat,
    pyFloatUnsigned, digitsToNat, pySplit, breakAtSep, takeRight, dropRight,
    readLineSize, preambleStr, natDigits, pad0, digitChar,
    PREAMBLE_SIZE, VALUE_SIZE, DELIMITER, TERMINATOR]

/-- C8 witness: the transport-error branch of a 2-channel decoder. -/
theorem sel_read_record_shape_witness :
    ([Entry.str "W8", Entry.num (some 3),
        Entry.str "Timed out with incomplete response.",
        Entry.num none, Entry.num none] : List Entry).length = 3 + 2 ∧
      ([Entry.str "W8", Entry.num (some 3),
        Entry.str "Timed out with incomplete response.",
        Entry.num none, Entry.num none] : List Entry)[0]?
        = some (.str "W8") ∧
      (([Entry.str "W8", Entry.num (some 3),
        Entry.str "Timed out with incomplete response.",
        Entry.num none, Entry.num none] : List Entry)[1]?
        = some (.num (some 3)) ∧ (0 : ℚ) ≤ 3) ∧
      ∃ e, ([Entry.str "W8", Entry.num (some 3),
        Entry.str "Timed out with incomplete response.",
        Entry.num none, Entry.num none] : List Entry)[2]?
          = some (.str e) ∧ (e = "OK" ∨ e ≠ "") :=
  sel_read_record_shape 2 [none, none] rfl "W8"
    "Timed out with incomplete response." (by decide) [] 3 (by norm_num)
    [Entry.str "W8", Entry.num (some 3),
      Entry.str "Timed out with incomplete response.",
      Entry.num none, Entry.num none]
    (by simp +decide [selRead, mkRecord])

/-- C9: wrong-state commands answer the state-specific error code, never
`"OK"`, and leave the control state (configuration and started flag)
unchanged: `start` before any configuration answers `NOT_CONFIGURED`,
`start` while already started answers `ALREADY_STARTED`, `configure`
while started answers `ALREADY_STARTED`, and `stop` when not started
answers `NOT_STARTED`; in addition, any non-`"OK"` response leaves the
state unchanged. -/
theorem handle_command_wrong_state :
    handleCommand { configuration := none, started := false } .start
      = ("NOT_CONFIGURED", { configuration := none, started := false }) ∧
    (∀ st : HandlerState, st.started = false →
      handleCommand st .stop = ("NOT_STARTED", st)) ∧
    (∀ st : HandlerState, st.configuration = none →
      handleCommand st .start = ("NOT_CONFIGURED", st)) ∧
    (∀ st : HandlerState, st.configuration ≠ none → st.started = true →
      handleCommand st .start = ("ALREADY_STARTED", st)) ∧
    (∀ (st : HandlerState) (devices : List DeviceConfig), st.started = true →
      handleCommand st (.configure devices) = ("ALREADY_STARTED", st)) ∧
    (∀ (st : HandlerState) (cmd : Command) (resp : String)
      (st2 : HandlerState), handleCommand st cmd = (resp, st2) →
      resp ≠ "OK" → st2 = st) := by
  refine ⟨rfl, ?_, ?_, ?_, ?_, ?_⟩
  · intro st h
    simp [handleCommand, h]
  · intro st h
    simp [handleCommand, h]
  · intro st hc h
    obtain ⟨c, hcfg⟩ := Option.ne_none_iff_exists'.mp hc
    simp [handleCommand, hcfg, h]
  · intro st devices h
    simp [handleCommand, h]
  · intro st cmd resp st2 heq hne
    cases cmd with
    | configure devices =>
      simp only [handleCommand] at heq
      split_ifs at heq with h1 h2
      · exact (congrArg Prod.snd heq).symm
      · exact absurd (congrArg Prod.fst heq).symm hne
      · exact (congrArg Prod.snd heq).symm
    | start =>
      simp only [handleCommand] at heq
      cases hcfg : st.configuration with
      | none =>
        rw [hcfg] at heq
        exact (congrArg Prod.snd heq).symm
      | some c =>
        rw [hcfg] at heq
        split_ifs at heq with h1
        · exact (congrArg Prod.snd heq).symm
        · exact absurd (congrArg Prod.fst heq).symm hne
    | stop =>
      simp only [handleCommand] at heq
      split_ifs at heq with h1
      · exact absurd (congrArg Prod.fst heq).symm hne
      · exact (congrArg Prod.snd heq).symm

/-- C9 witness: `stop` on the freshly connected, unstarted state. -/
theorem handle_command_wrong_state_witness :
    handleCommand { configuration := none, started := false } .stop
      = ("NOT_STARTED", { configuration := none, started := false }) :=
  handle_command_wrong_state.2.1 { configuration := none, started := false } rfl

end EnvSensors
